import Mathlib

/-!
Verification of the Marvin memory service core (agent/memory.py,
agent/api/query.py, agent/api/clarify.py, agent/api/session_store.py,
agent/ratelimit.py, agent/config.py) against its specification.

Modelling conventions:
* Python floats are modelled exactly: embedding components are rationals
  (`List ℚ`) and similarity scores live in a linearly ordered field `S`
  (instantiated at `ℝ` for the concrete cosine similarity, whose value
  involves a square root, and at `ℚ` for executable witnesses).
* The algorithmic layer (duplicate scan, ranking, endpoints) is
  parameterised by the similarity function `sim` exactly where the Python
  code calls `cosine_similarity`, so that the same definitions serve both
  the real instantiation and executable ones.
* The embedding provider (OpenAI) is an external collaborator; it is a
  parameter `provider : String → List ℚ`.  Provider transport failures
  (OpenAIError) are outside the modelled state space.
* Python dictionaries are modelled as functions into `Option`, mutation as
  functional update; the embedding cache is keyed by the normalised text
  itself (the SHA-256 content hash of agent/memory.py is injective for the
  purposes of the cache).
* `time.time()` values are rationals.
-/

/-- Python `str.strip()` on a list of characters: drop whitespace from both
ends.  (`String.trim` in Lean does not reduce in the kernel, so the model
works on the character list directly.) -/
def stripChars (cs : List Char) : List Char :=
  ((cs.dropWhile Char.isWhitespace).reverse.dropWhile Char.isWhitespace).reverse

/-- Python `str.strip()`: `text.strip()` in agent/memory.py. -/
def pyStrip (s : String) : String :=
  String.mk (stripChars s.data)

/-- The in-memory embedding cache `_embedding_cache` of agent/memory.py,
keyed by the (hash of the) normalised text. -/
def Cache : Type := String → Option (List ℚ)

/-- Sum of squares of a vector; `np.linalg.norm(v)` of agent/memory.py is
`Real.sqrt (sumsq v)`. -/
def sumsq (v : List ℚ) : ℚ :=
  (v.map (fun x => x * x)).sum

/-- `np.dot(a, b)` on two equal-length vectors. -/
def dot (a b : List ℚ) : ℚ :=
  (List.zipWith (fun x y => x * y) a b).sum

/-- Python exception classes relevant to `cosine_similarity`. -/
inductive PyExc
  | valueError
  | typeError
deriving DecidableEq

/-- The two error conditions raised by `cosine_similarity`
(agent/memory.py lines 236-240).  Both are Python `ValueError`s; the
second carries the "Vector dimensions must match" message. -/
inductive CosErr
  | emptyVectors
  | dimensionMismatch
deriving DecidableEq

/-- Exception class of a `cosine_similarity` error: both raises in the
source are `raise ValueError(...)`. -/
def CosErr.pyExc : CosErr → PyExc := fun _ => .valueError

/-- `cosine_similarity` of agent/memory.py (lines 219-263): empty-vector
check, dimension check, zero-norm short-circuit to `0.0`, otherwise
`dot / (norm_a * norm_b)`.  The source tests `np.linalg.norm(a) == 0`;
since `Real.sqrt x = 0 ↔ x = 0` for `x ≥ 0` (recorded in
`sqrt_sumsq_eq_zero_iff` below) the model tests `sumsq a = 0`, which is
decidable. -/
noncomputable def cosine_similarity (a b : List ℚ) : Except CosErr ℝ :=
  if a = [] ∨ b = [] then .error .emptyVectors
  else if a.length ≠ b.length then .error .dimensionMismatch
  else if sumsq a = 0 ∨ sumsq b = 0 then .ok 0
  else .ok ((dot a b : ℝ) / (Real.sqrt (sumsq a) * Real.sqrt (sumsq b)))

/-- A sum of squares is non-negative. -/
theorem sumsq_nonneg (v : List ℚ) : 0 ≤ sumsq v := by
  unfold sumsq
  induction v with
  | nil => simp
  | cons x xs ih =>
    simp only [List.map_cons, List.sum_cons]
    have := mul_self_nonneg x
    linarith

/-- The zero-norm test of the source (`np.linalg.norm(a) == 0`) agrees with
the decidable test `sumsq a = 0` used in the model. -/
theorem sqrt_sumsq_eq_zero_iff (v : List ℚ) :
    Real.sqrt (sumsq v) = 0 ↔ (sumsq v : ℚ) = 0 := by
  constructor
  · intro h
    have hnn : (0:ℝ) ≤ (sumsq v : ℝ) := by exact_mod_cast sumsq_nonneg v
    have := (Real.sqrt_eq_zero hnn).mp h
    exact_mod_cast this
  · intro h
    rw [show ((sumsq v : ℚ) : ℝ) = 0 by exact_mod_cast h]
    exact Real.sqrt_zero

/-- Errors raised by the memory layer of agent/memory.py: `ValueError` on
empty input text or query, `ValueError` on a non-positive `top_k`, and the
(uncaught) `ValueError`s of `cosine_similarity`. -/
inductive MemErr
  | emptyInput
  | invalidTopK
  | cosineError (e : CosErr)
deriving DecidableEq

/-- `embed_text` of agent/memory.py (lines 146-217): reject empty or
whitespace-only text, normalise by stripping, serve from the cache on a
hit, otherwise call the provider and cache the result. -/
def embed_text (provider : String → List ℚ) (cache : Cache) (text : String) :
    Except MemErr (List ℚ × Cache) :=
  if pyStrip text = "" then .error .emptyInput
  else
    let t := pyStrip text
    match cache t with
    | some v => .ok (v, cache)
    | none => .ok (provider t, fun s => if s = t then some (provider t) else cache s)

/-- The `embedding` column of a stored row.  `valid v` is a JSON array of
numbers; `invalid` covers content on which `json.loads` raises
`JSONDecodeError` or the numeric conversion raises `TypeError` — exactly
the two exception classes that the scans of `store_memory` and
`query_memory` catch and skip. -/
inductive EmbeddingField
  | valid (v : List ℚ)
  | invalid
deriving DecidableEq

/-- One row of the `memories` table (agent/memory.py `init_db`):
`id, text, embedding, timestamp, language, location`. -/
structure MemRecord where
  id : String
  text : String
  emb : EmbeddingField
  timestamp : Option String
  language : String
  location : Option String
deriving DecidableEq

/-- The `metadata` dictionary passed to `store_memory`; missing keys are
`none` (`metadata.get(...)` in the source). -/
structure Metadata where
  timestamp : Option String
  language : Option String
  location : Option String
deriving DecidableEq

/-- Result dictionary of `store_memory`. -/
structure StoreResult (S : Type) where
  duplicate_detected : Bool
  memory_id : String
  existing_memory_preview : Option String
  similarity_score : Option S
deriving DecidableEq

/-- The duplicate-detection loop of `store_memory` (agent/memory.py lines
316-342): scan the rows in storage order; skip a row whose embedding does
not parse; propagate a `cosine_similarity` error; stop at the FIRST row
whose similarity reaches 0.85. -/
def findDup {S : Type} [LinearOrderedField S]
    (sim : List ℚ → List ℚ → Except CosErr S) (e : List ℚ) :
    List MemRecord → Except CosErr (Option (MemRecord × S))
  | [] => .ok none
  | r :: rs =>
    match r.emb with
    | .invalid => findDup sim e rs
    | .valid v =>
      match sim e v with
      | .error err => .error err
      | .ok s => if (0.85 : S) ≤ s then .ok (some (r, s)) else findDup sim e rs

/-- `store_memory` of agent/memory.py (lines 265-384): validate, embed the
normalised text, run the duplicate scan, and either report the duplicate
(no insertion) or insert a new row with the freshly generated id.  The
UUID generated by `uuid.uuid4()` is the parameter `freshId`. -/
def store_memory {S : Type} [LinearOrderedField S]
    (sim : List ℚ → List ℚ → Except CosErr S) (provider : String → List ℚ)
    (freshId : String) (text : String) (meta : Metadata)
    (cache : Cache) (db : List MemRecord) :
    Except MemErr (StoreResult S × Cache × List MemRecord) :=
  if pyStrip text = "" then .error .emptyInput
  else
    let normalized := pyStrip text
    match embed_text provider cache normalized with
    | .error err => .error err
    | .ok (e, cache') =>
      match findDup sim e db with
      | .error ce => .error (.cosineError ce)
      | .ok (some (r, s)) =>
        .ok ({ duplicate_detected := true, memory_id := r.id,
               existing_memory_preview := some r.text,
               similarity_score := some s }, cache', db)
      | .ok none =>
        .ok ({ duplicate_detected := false, memory_id := freshId,
               existing_memory_preview := none, similarity_score := none },
             cache',
             db ++ [{ id := freshId, text := normalized, emb := .valid e,
                      timestamp := meta.timestamp,
                      language := meta.language.getD "he",
                      location := meta.location }])

/-- One entry of the result list of `query_memory`:
`{"memory_id": ..., "text": ..., "similarity_score": ...}`. -/
structure Cand (S : Type) where
  memory_id : String
  text : String
  similarity_score : S
deriving DecidableEq

/-- The similarity-and-skip pass of `query_memory` (agent/memory.py lines
437-453): walk the rows in storage order, skip rows whose embedding does
not parse, propagate `cosine_similarity` errors, and collect
`(memory_id, text, similarity_score)` in scan order. -/
def computeScores {S : Type} [LinearOrderedField S]
    (sim : List ℚ → List ℚ → Except CosErr S) (qe : List ℚ) :
    List MemRecord → Except CosErr (List (Cand S))
  | [] => .ok []
  | r :: rs =>
    match r.emb with
    | .invalid => computeScores sim qe rs
    | .valid v =>
      match sim qe v with
      | .error err => .error err
      | .ok s =>
        match computeScores sim qe rs with
        | .error err => .error err
        | .ok cs => .ok ({ memory_id := r.id, text := r.text,
                           similarity_score := s } :: cs)

/-- Insert a candidate into a descending-sorted list AFTER every element of
score greater than or equal to its own.  Together with the fold of
`sortDesc` this is exactly the behaviour of the stable
`results.sort(key=..., reverse=True)` of agent/memory.py line 456:
descending scores, ties kept in scan order. -/
def insertDesc {S : Type} [LinearOrderedField S] (c : Cand S) :
    List (Cand S) → List (Cand S)
  | [] => [c]
  | d :: ds =>
    if c.similarity_score ≤ d.similarity_score then d :: insertDesc c ds
    else c :: d :: ds

/-- Stable descending sort by `similarity_score` (Python `list.sort` with
`reverse=True` is stable). -/
def sortDesc {S : Type} [LinearOrderedField S] (l : List (Cand S)) : List (Cand S) :=
  l.foldl (fun acc c => insertDesc c acc) []

/-- `query_memory` of agent/memory.py (lines 386-480): validate the query
and `top_k`, embed the normalised query, return `[]` on an empty table,
otherwise score every row, sort by similarity descending (stable) and
truncate to `top_k`. -/
def query_memory {S : Type} [LinearOrderedField S]
    (sim : List ℚ → List ℚ → Except CosErr S) (provider : String → List ℚ)
    (query : String) (top_k : ℕ) (cache : Cache) (db : List MemRecord) :
    Except MemErr (List (Cand S) × Cache) :=
  if pyStrip query = "" then .error .emptyInput
  else if top_k = 0 then .error .invalidTopK
  else
    match embed_text provider cache (pyStrip query) with
    | .error err => .error err
    | .ok (qe, cache') =>
      if db = [] then .ok ([], cache')
      else
        match computeScores sim qe db with
        | .error ce => .error (.cosineError ce)
        | .ok results => .ok ((sortDesc results).take top_k, cache')

/-- `get_memory_by_id` of agent/memory.py (lines 686-734): reject an empty
id, then `SELECT ... WHERE id = ?` on the stripped id.  The returned row
carries no embedding column. -/
structure MemoryData where
  memory_id : String
  text : String
  timestamp : Option String
  language : String
  location : Option String
deriving DecidableEq

/-- Lookup of a row by primary key (`WHERE id = ?`); `none` models the
"memory not found" outcome. -/
def get_memory_by_id (db : List MemRecord) (memory_id : String) :
    Except MemErr (Option MemoryData) :=
  if pyStrip memory_id = "" then .error .emptyInput
  else
    match db.find? (fun r => r.id = pyStrip memory_id) with
    | none => .ok none
    | some r => .ok (some { memory_id := r.id, text := r.text,
                            timestamp := r.timestamp, language := r.language,
                            location := r.location })

/-- `SESSION_TTL_SECONDS = 300` of agent/api/session_store.py. -/
def SESSION_TTL_SECONDS : ℚ := 300

/-- One value of the `_session_store` dictionary:
`{"expires": float, "candidates": [...]}`.  The candidate payload type is a
parameter (the store holds plain dumped dictionaries). -/
structure SessionEntry (α : Type) where
  expires : ℚ
  candidates : α

/-- The `_session_store` dictionary, keyed by session id. -/
def Sessions (α : Type) : Type := String → Option (SessionEntry α)

/-- `create_session` of agent/api/session_store.py (lines 12-19): store the
candidates under a fresh `uuid4` id (the parameter `sid`) with
`expires = now + SESSION_TTL_SECONDS`. -/
def create_session {α : Type} (sid : String) (now : ℚ) (cands : α)
    (st : Sessions α) : String × Sessions α :=
  (sid, fun s => if s = sid then some ⟨now + SESSION_TTL_SECONDS, cands⟩ else st s)

/-- `get_session_candidates` of agent/api/session_store.py (lines 21-30):
missing id gives `None`; `now > expires` lazily deletes the entry and gives
`None`; otherwise the candidates are returned and nothing is modified. -/
def get_session_candidates {α : Type} (now : ℚ) (sid : String)
    (st : Sessions α) : Option α × Sessions α :=
  match st sid with
  | none => (none, st)
  | some e =>
    if e.expires < now then (none, fun s => if s = sid then none else st s)
    else (some e.candidates, st)

/-- The configuration fields of agent/config.py `Settings` consumed by the
modelled core.  Defaults: gap 0.05, min candidates 2, 10 requests per
60-second window, no auth key. -/
structure Settings (S : Type) where
  api_auth_key : Option String
  clarify_score_gap : S
  clarify_min_candidates : ℕ
  rate_limit_max_requests : ℕ
  rate_limit_window_seconds : ℕ

/-- The default `Settings()` values of agent/config.py. -/
def defaultSettings : Settings ℚ :=
  { api_auth_key := none, clarify_score_gap := 0.05,
    clarify_min_candidates := 2, rate_limit_max_requests := 10,
    rate_limit_window_seconds := 60 }

/-- Python truthiness of `Optional[str]`: `None` and `""` are falsy
(`if not settings.api_auth_key` / `if not x_api_key`). -/
def pyFalsy : Option String → Bool
  | none => true
  | some s => s = ""

/-- The `_rate_limit_counters` dictionary of agent/ratelimit.py: counts per
`(api_key, window)`; a missing key counts as 0 (`.get(counter_key, 0)`). -/
def RLState : Type := String × ℤ → ℕ

/-- `int(current_time // settings.rate_limit_window_seconds)`. -/
def windowIndex (now : ℚ) (windowSeconds : ℕ) : ℤ :=
  ⌊now / (windowSeconds : ℚ)⌋

/-- `rate_limit_guard` of agent/ratelimit.py (lines 26-96): disabled when
no auth key is configured or no API key was sent; otherwise
increment-and-check on the fixed window counter.  `true` models a pass,
`false` models the HTTP 429 rejection. -/
def rate_limit_guard (cfg : Settings ℚ) (x_api_key : Option String)
    (now : ℚ) (st : RLState) : Bool × RLState :=
  if pyFalsy cfg.api_auth_key then (true, st)
  else
    match x_api_key with
    | none => (true, st)
    | some k =>
      if k = "" then (true, st)
      else
        let window := windowIndex now cfg.rate_limit_window_seconds
        let current_count := st (k, window)
        if cfg.rate_limit_max_requests ≤ current_count then (false, st)
        else (true, fun p => if p = (k, window) then current_count + 1 else st p)

/-- A sequence of guarded calls for one caller key at the given times,
threading the counter state. -/
def runCalls (cfg : Settings ℚ) (key : Option String) :
    List ℚ → RLState → List Bool × RLState
  | [], st => ([], st)
  | t :: ts, st =>
    let r := rate_limit_guard cfg key t st
    let rest := runCalls cfg key ts r.2
    (r.1 :: rest.1, rest.2)

/-- The error taxonomy of agent/api/exceptions.py, with the HTTP status
carried by each class. -/
inductive ApiErr
  | invalidInput (msg : String)
  | memoryNotFound
  | openAIService
  | databaseFailure
  | internal
deriving DecidableEq

/-- `status_code` of each agent/api/exceptions.py class:
`InvalidInputError` 400, `MemoryNotFoundError` 404, `OpenAIServiceError`
503, `DatabaseError` 500, generic `MemoryServiceError` 500. -/
def ApiErr.statusCode : ApiErr → ℕ
  | .invalidInput _ => 400
  | .memoryNotFound => 404
  | .openAIService => 503
  | .databaseFailure => 500
  | .internal => 500

/-- The response built by `query_memory_endpoint` (agent/api/query.py line
184): it passes exactly `candidates`, `clarification_required` and
`clarification_question` to the `QueryResponse` constructor.  (The
`QueryResponse` pydantic model of agent/api/models.py additionally declares
a REQUIRED `session_id` field, which the endpoint never supplies — see the
theorems for claim C3.) -/
structure QueryEndpointResponse (S : Type) where
  candidates : List (Cand S)
  clarification_required : Bool
  clarification_question : Option String
deriving DecidableEq

/-- `query_memory_endpoint` of agent/api/query.py (lines 106-200): validate
the query and `top_k` (1..100), run `query_memory`, then declare
clarification exactly when at least `clarify_min_candidates` candidates
exist and `abs(top1.score - top2.score) <= clarify_score_gap`.  The
question text built by `_generate_clarification_question` is the parameter
`genQ` (its content plays no role in the claims below).  A `ValueError`
escaping `query_memory`, or the `IndexError` on `candidates[1]` when
`clarify_min_candidates < 2`, is caught by the final `except Exception`
and surfaces as a 500 `MemoryServiceError`.  The session store is threaded
through the call: the endpoint contains no `create_session` call, so it is
returned unchanged. -/
def query_memory_endpoint {S : Type} [LinearOrderedField S]
    (sim : List ℚ → List ℚ → Except CosErr S) (provider : String → List ℚ)
    (genQ : String → List (Cand S) → String) (cfg : Settings S)
    (query : String) (top_k : ℕ) (cache : Cache) (db : List MemRecord)
    (sessions : Sessions (List (Cand S))) :
    Except ApiErr (QueryEndpointResponse S × Cache × Sessions (List (Cand S))) :=
  if pyStrip query = "" then .error (.invalidInput "Query cannot be empty")
  else if top_k = 0 ∨ 100 < top_k then
    .error (.invalidInput "top_k must be between 1 and 100")
  else
    match query_memory sim provider (pyStrip query) top_k cache db with
    | .error _ => .error .internal
    | .ok (memory_candidates, cache') =>
      if cfg.clarify_min_candidates ≤ memory_candidates.length then
        match memory_candidates with
        | c0 :: c1 :: _ =>
          if abs (c0.similarity_score - c1.similarity_score) ≤ cfg.clarify_score_gap then
            .ok ({ candidates := memory_candidates,
                   clarification_required := true,
                   clarification_question :=
                     some (genQ (pyStrip query) (memory_candidates.take 2)) },
                 cache', sessions)
          else
            .ok ({ candidates := memory_candidates,
                   clarification_required := false,
                   clarification_question := none }, cache', sessions)
        | _ => .error .internal
      else
        .ok ({ candidates := memory_candidates,
               clarification_required := false,
               clarification_question := none }, cache', sessions)

/-- Word characters of the regex `\w` used by agent/api/clarify.py. -/
def isWordChar (c : Char) : Bool := c.isAlphanum || c = '_'

/-- `re.findall(r"\w+", s)`: maximal runs of word characters, in order.
The accumulator holds the current run reversed. -/
def wordsAux : List Char → List Char → List String
  | [], acc => if acc = [] then [] else [String.mk acc.reverse]
  | c :: cs, acc =>
    if isWordChar c then wordsAux cs (c :: acc)
    else if acc = [] then wordsAux cs []
    else String.mk acc.reverse :: wordsAux cs []

/-- `re.findall(r"\w+", s.lower())` as a deduplicated list, modelling the
Python `set(...)` of agent/api/clarify.py. -/
def wordSet (s : String) : List String :=
  (wordsAux (s.data.map Char.toLower) []).dedup

/-- `len(phrase_words & cand_words)`: size of the intersection of the two
word sets. -/
def overlapCount (phrase candText : String) : ℕ :=
  ((wordSet phrase).filter (fun w => w ∈ wordSet candText)).length

/-- The best-overlap loop of agent/api/clarify.py (lines 87-94): keep the
first candidate of strictly maximal overlap, starting from
`best_candidate = None, best_overlap = 0`. -/
def bestOverlap {S : Type} (phrase : String) (candidates : List (Cand S)) :
    Option (Cand S) × ℕ :=
  candidates.foldl
    (fun acc cand =>
      let ov := overlapCount phrase cand.text
      if acc.2 < ov then (some cand, ov) else acc)
    (none, 0)

/-- Key computation of the embedding fallback (agent/api/clarify.py lines
100-103): `cosine_similarity(phrase_embedding, embed_text(c["text"]))` for
each candidate in order, threading the mutable embedding cache through the
`embed_text` calls. -/
def fallbackScores {S : Type} [LinearOrderedField S]
    (sim : List ℚ → List ℚ → Except CosErr S) (provider : String → List ℚ)
    (phraseEmb : List ℚ) :
    List (Cand S) → Cache → Except MemErr (List (Cand S × S) × Cache)
  | [], cache => .ok ([], cache)
  | c :: cs, cache =>
    match embed_text provider cache c.text with
    | .error err => .error err
    | .ok (ce, cache') =>
      match sim phraseEmb ce with
      | .error err => .error (.cosineError err)
      | .ok s =>
        match fallbackScores sim provider phraseEmb cs cache' with
        | .error err => .error err
        | .ok (rest, cache'') => .ok ((c, s) :: rest, cache'')

/-- Python `max(..., key=...)`: first element with the maximal key. -/
def maxByFirst {S : Type} [LinearOrderedField S] :
    List (Cand S × S) → Option (Cand S)
  | [] => none
  | (c, s) :: rest =>
    (rest.foldl (fun acc p => if acc.2 < p.2 then p else acc) (c, s)).1 |> some

/-- The embedding fallback of agent/api/clarify.py (lines 98-104): embed
the phrase and take the first candidate of maximal similarity. -/
def phraseFallback {S : Type} [LinearOrderedField S]
    (sim : List ℚ → List ℚ → Except CosErr S) (provider : String → List ℚ)
    (phrase : String) (candidates : List (Cand S)) (cache : Cache) :
    Except ApiErr (Option String × Cache) :=
  match embed_text provider cache phrase with
  | .error _ => .error .internal
  | .ok (phraseEmb, cache') =>
    match fallbackScores sim provider phraseEmb candidates cache' with
    | .error _ => .error .internal
    | .ok (scored, cache'') =>
      match maxByFirst scored with
      | some bc => .ok (some bc.memory_id, cache'')
      | none => .ok (none, cache'')

/-- Request fields read by `clarify_resolution_endpoint`
(agent/api/clarify.py): `query`, `chosen_memory_id` and
`chosen_memory_phrase`.  (Request-schema validation is external plumbing;
the pydantic `ClarifyRequest` of agent/api/models.py does not even declare
`chosen_memory_phrase`.) -/
structure ClarifyRequest where
  query : String
  chosen_memory_id : Option String
  chosen_memory_phrase : Option String
deriving DecidableEq

/-- Response of a successful clarification resolution (agent/api/clarify.py
lines 136-141); `message` is the confirmation string with the 100-character
preview of the chosen text. -/
structure ClarifyEndpointResponse where
  clarification_resolved : Bool
  memory_id : String
  text : String
  message : String
deriving DecidableEq

/-- The confirmation message of agent/api/clarify.py line 140. -/
def clarifyMessage (text : String) : String :=
  "Clarification resolved. Selected memory: " ++ String.mk (text.data.take 100)
    ++ (if 100 < text.data.length then "..." else "")

/-- Python truthiness test `value and value.strip()` on an optional string:
present and not whitespace-only. -/
def presentStripped : Option String → Option String
  | none => none
  | some s => if pyStrip s = "" then none else some (pyStrip s)

/-- `clarify_resolution_endpoint` of agent/api/clarify.py (lines 56-153).
Path (a): a non-empty `chosen_memory_id` is used directly.  Path (b): a
non-empty `chosen_memory_phrase` picks a candidate of
`query_memory(query, clarify_min_candidates)` by maximal word overlap,
falling back to embedding similarity when every overlap is zero.  With
neither, `InvalidInputError` (HTTP 400).  An unknown id raises
`InvalidInputError` (HTTP 400) — agent/api/clarify.py line 120 — although
the route declaration documents 404 for "Chosen memory ID not found" and
agent/api/exceptions.py provides `MemoryNotFoundError` (404) for exactly
that condition.  `ValueError`s escaping the memory layer fall into the
final `except Exception` and surface as 500. -/
def clarify_resolution_endpoint {S : Type} [LinearOrderedField S]
    (sim : List ℚ → List ℚ → Except CosErr S) (provider : String → List ℚ)
    (cfg : Settings S) (req : ClarifyRequest) (cache : Cache)
    (db : List MemRecord) :
    Except ApiErr (ClarifyEndpointResponse × Cache) :=
  if pyStrip req.query = "" then .error (.invalidInput "Query cannot be empty")
  else
    let chosenAndCache : Except ApiErr (Option String × Cache) :=
      match presentStripped req.chosen_memory_id with
      | some cid => .ok (some cid, cache)
      | none =>
        match presentStripped req.chosen_memory_phrase with
        | none => .ok (none, cache)
        | some phrase =>
          match query_memory sim provider (pyStrip req.query)
              cfg.clarify_min_candidates cache db with
          | .error _ => .error .internal
          | .ok (candidates, cache') =>
            if candidates = [] then
              .error (.invalidInput "No candidates available for clarification")
            else
              let best := bestOverlap phrase candidates
              match best.1 with
              | some bc =>
                if 0 < best.2 then .ok (some bc.memory_id, cache')
                else phraseFallback sim provider phrase candidates cache'
              | none => phraseFallback sim provider phrase candidates cache'
    match chosenAndCache with
    | .error err => .error err
    | .ok (none, _) =>
      .error (.invalidInput
        "Either chosen_memory_id or chosen_memory_phrase must be provided")
    | .ok (some chosen_id, cache') =>
      match get_memory_by_id db chosen_id with
      | .error _ => .error .internal
      | .ok none =>
        .error (.invalidInput "Memory with ID not found")
      | .ok (some m) =>
        .ok ({ clarification_resolved := true, memory_id := m.memory_id,
               text := m.text, message := clarifyMessage m.text }, cache')

/-- Claim C4: a session created with TTL 300s stores
`expires_at = creation time + 300`; `get` returns the stored candidates and
leaves the store untouched (in particular `expires_at` is not extended)
whenever the current time has not passed `expires_at`, and once the current
time is strictly past `expires_at` the same `get` call deletes the entry
and returns the not-found result. -/
theorem session_ttl_claim {α : Type} (sid : String) (t0 : ℚ) (cands : α)
    (st : Sessions α) (t : ℚ) :
    ((create_session sid t0 cands st).2 sid
        = some { expires := t0 + 300, candidates := cands }) ∧
    (t ≤ t0 + 300 →
      get_session_candidates t sid (create_session sid t0 cands st).2
        = (some cands, (create_session sid t0 cands st).2)) ∧
    (t0 + 300 < t →
      (get_session_candidates t sid (create_session sid t0 cands st).2).1 = none ∧
      (get_session_candidates t sid (create_session sid t0 cands st).2).2 sid = none ∧
      ∀ s, s ≠ sid →
        (get_session_candidates t sid (create_session sid t0 cands st).2).2 s
          = (create_session sid t0 cands st).2 s) := by
  have hlook : (create_session sid t0 cands st).2 sid
      = some { expires := t0 + 300, candidates := cands } := by
    unfold create_session SESSION_TTL_SECONDS
    simp
  refine ⟨hlook, ?_, ?_⟩
  · intro hle
    simp only [get_session_candidates, hlook]
    rw [if_neg (not_lt.mpr hle)]
  · intro hlt
    simp only [get_session_candidates, hlook]
    rw [if_pos hlt]
    refine ⟨rfl, by simp, ?_⟩
    intro s hs
    simp [hs]

/-- Witness for C4 at a concrete session: creation at time 100, a read at
time 400 (= expires_at) succeeds without touching the entry, and a read at
time 401 deletes it and reports not-found. -/
theorem session_ttl_claim_witness :
    ((create_session "sid-1" 100 [7] (fun _ => none)).2 "sid-1"
        = some { expires := (100:ℚ) + 300, candidates := [7] }) ∧
    ((400:ℚ) ≤ 100 + 300 ∧
      get_session_candidates 400 "sid-1" (create_session "sid-1" 100 [7] (fun _ => none)).2
        = (some [7], (create_session "sid-1" 100 [7] (fun _ => none)).2)) ∧
    ((100:ℚ) + 300 < 401 ∧
      (get_session_candidates 401 "sid-1" (create_session "sid-1" 100 [7] (fun _ => none)).2).1
        = none ∧
      (get_session_candidates 401 "sid-1" (create_session "sid-1" 100 [7] (fun _ => none)).2).2 "sid-1"
        = none) :=
  ⟨(session_ttl_claim "sid-1" 100 [7] (fun _ => none) 400).1,
   ⟨by norm_num,
    (session_ttl_claim "sid-1" 100 [7] (fun _ => none) 400).2.1 (by norm_num)⟩,
   ⟨by norm_num,
    ((session_ttl_claim "sid-1" 100 [7] (fun _ => none) 401).2.2 (by norm_num)).1,
    ((session_ttl_claim "sid-1" 100 [7] (fun _ => none) 401).2.2 (by norm_num)).2.1⟩⟩

/-- Claim C7: `cosine_similarity` returns 0.0 without raising on non-empty
equal-length vectors when either has zero norm; raises the
dimension-mismatch `ValueError` when two non-empty vectors differ in
length; and raises a `ValueError`-class error when either vector is empty
(the source checks emptiness before lengths, so the clauses are scoped the
way the code orders its checks). -/
theorem cosine_similarity_claim :
    (∀ a b : List ℚ, a ≠ [] → b ≠ [] → a.length = b.length →
        (sumsq a = 0 ∨ sumsq b = 0) → cosine_similarity a b = .ok 0) ∧
    (∀ a b : List ℚ, a ≠ [] → b ≠ [] → a.length ≠ b.length →
        cosine_similarity a b = .error .dimensionMismatch) ∧
    (∀ a b : List ℚ, a = [] ∨ b = [] →
        ∃ e, cosine_similarity a b = .error e ∧ e.pyExc = .valueError) := by
  refine ⟨?_, ?_, ?_⟩
  · intro a b ha hb hlen hz
    unfold cosine_similarity
    rw [if_neg (by simp [ha, hb]), if_neg (by simp [hlen]), if_pos hz]
  · intro a b ha hb hlen
    unfold cosine_similarity
    rw [if_neg (by simp [ha, hb]), if_pos hlen]
  · intro a b hab
    refine ⟨.emptyVectors, ?_, rfl⟩
    unfold cosine_similarity
    rw [if_pos hab]

/-- Witness for C7: `[0,0]` against `[3,4]` yields 0.0, `[1]` against
`[1,2]` yields the dimension-mismatch error, and an empty first vector
yields a `ValueError`-class error. -/
theorem cosine_similarity_claim_witness :
    cosine_similarity [0, 0] [3, 4] = .ok 0 ∧
    cosine_similarity [1] [1, 2] = .error .dimensionMismatch ∧
    ∃ e, cosine_similarity [] [1] = .error e ∧ e.pyExc = .valueError :=
  ⟨cosine_similarity_claim.1 [0, 0] [3, 4] (by simp) (by simp) (by simp)
      (Or.inl (by norm_num [sumsq])),
   cosine_similarity_claim.2.1 [1] [1, 2] (by simp) (by simp) (by simp),
   cosine_similarity_claim.2.2 [] [1] (Or.inl rfl)⟩

/-- When rate limiting is disabled (no auth key configured, Python-falsy),
every call passes and the counters are untouched. -/
theorem rate_limit_guard_disabled (cfg : Settings ℚ) (key : Option String)
    (now : ℚ) (st : RLState) (h : pyFalsy cfg.api_auth_key = true) :
    rate_limit_guard cfg key now st = (true, st) := by
  unfold rate_limit_guard
  rw [if_pos h]

/-- One enabled guarded call: increment-and-check on the counter of the
caller's current fixed window. -/
theorem rate_limit_guard_enabled_step (cfg : Settings ℚ) (a k : String)
    (now : ℚ) (st : RLState)
    (ha : cfg.api_auth_key = some a) (hane : a ≠ "") (hk : k ≠ "") :
    rate_limit_guard cfg (some k) now st =
      if cfg.rate_limit_max_requests
          ≤ st (k, windowIndex now cfg.rate_limit_window_seconds)
      then (false, st)
      else (true, fun p =>
        if p = (k, windowIndex now cfg.rate_limit_window_seconds)
        then st (k, windowIndex now cfg.rate_limit_window_seconds) + 1
        else st p) := by
  unfold rate_limit_guard
  rw [ha]
  simp [pyFalsy, hane, hk]

/-- Invariant of a run of enabled calls for one key whose times share the
fixed window `w`: starting from count `c ≤ max`, the first `max - c` calls
pass, the rest are rejected, the final count is `min (c + n) max`, and
counters of other keys never move. -/
theorem runCalls_window_invariant (cfg : Settings ℚ) (a k : String)
    (ha : cfg.api_auth_key = some a) (hane : a ≠ "") (hk : k ≠ "") (w : ℤ) :
    ∀ (times : List ℚ) (st : RLState),
      (∀ t ∈ times, windowIndex t cfg.rate_limit_window_seconds = w) →
      st (k, w) ≤ cfg.rate_limit_max_requests →
      ((runCalls cfg (some k) times st).1
        = List.replicate (min times.length (cfg.rate_limit_max_requests - st (k, w))) true
          ++ List.replicate (times.length - (cfg.rate_limit_max_requests - st (k, w))) false)
      ∧ ((runCalls cfg (some k) times st).2 (k, w)
        = min (st (k, w) + times.length) cfg.rate_limit_max_requests)
      ∧ (∀ p : String × ℤ, p.1 ≠ k → (runCalls cfg (some k) times st).2 p = st p) := by
  intro times
  induction times with
  | nil =>
    intro st hw hc
    refine ⟨by simp [runCalls], ?_, fun p _ => rfl⟩
    simp only [runCalls, List.length_nil, Nat.add_zero]
    omega
  | cons t ts ih =>
    intro st hw hc
    have hwt : windowIndex t cfg.rate_limit_window_seconds = w :=
      hw t (List.mem_cons_self t ts)
    have hstep := rate_limit_guard_enabled_step cfg a k t st ha hane hk
    rw [hwt] at hstep
    by_cases hover : cfg.rate_limit_max_requests ≤ st (k, w)
    · -- counter already at the limit: rejected, state unchanged
      rw [if_pos hover] at hstep
      have hrec := ih st (fun t' ht' => hw t' (List.mem_cons_of_mem t ht')) hc
      have hceq : st (k, w) = cfg.rate_limit_max_requests := le_antisymm hc hover
      constructor
      · show (runCalls cfg (some k) (t :: ts) st).1 = _
        simp only [runCalls, hstep]
        rw [hrec.1]
        have h0 : cfg.rate_limit_max_requests - st (k, w) = 0 := by omega
        rw [h0]
        simp [List.replicate_succ]
      · constructor
        · show (runCalls cfg (some k) (t :: ts) st).2 (k, w) = _
          simp only [runCalls, hstep]
          rw [hrec.2.1]
          simp only [List.length_cons]
          omega
        · intro p hp
          show (runCalls cfg (some k) (t :: ts) st).2 p = st p
          simp only [runCalls, hstep]
          exact hrec.2.2 p hp
    · -- below the limit: allowed, counter incremented
      rw [if_neg hover] at hstep
      have hlt : st (k, w) < cfg.rate_limit_max_requests := lt_of_not_le hover
      set st' : RLState :=
        fun p => if p = (k, w) then st (k, w) + 1 else st p with hst'
      have hst'k : st' (k, w) = st (k, w) + 1 := by simp [hst']
      have hrec := ih st' (fun t' ht' => hw t' (List.mem_cons_of_mem t ht'))
        (by rw [hst'k]; omega)
      constructor
      · show (runCalls cfg (some k) (t :: ts) st).1 = _
        simp only [runCalls, hstep]
        rw [hrec.1, hst'k]
        have h1 : min (ts.length + 1) (cfg.rate_limit_max_requests - st (k, w))
            = min ts.length (cfg.rate_limit_max_requests - (st (k, w) + 1)) + 1 := by
          omega
        have h2 : (ts.length + 1) - (cfg.rate_limit_max_requests - st (k, w))
            = ts.length - (cfg.rate_limit_max_requests - (st (k, w) + 1)) := by
          omega
        simp only [List.length_cons, h1, h2, List.replicate_succ, List.cons_append]
      · constructor
        · show (runCalls cfg (some k) (t :: ts) st).2 (k, w) = _
          simp only [runCalls, hstep]
          rw [hrec.2.1, hst'k]
          simp only [List.length_cons]
          omega
        · intro p hp
          show (runCalls cfg (some k) (t :: ts) st).2 p = st p
          simp only [runCalls, hstep]
          rw [hrec.2.2 p hp, hst']
          have : p ≠ (k, w) := by
            intro hcontra
            exact hp (by rw [hcontra])
          simp [this]

/-- Claim C5: with rate limiting configured (`max=10`, `window=60s`), the
first 10 calls of a caller key whose times share one fixed window all pass,
each incrementing the counter; every further call in that window is
rejected without incrementing; counters of other caller keys are untouched
(independent counting); and with no caller-key scheme configured every call
is allowed with no state change. -/
theorem rate_limit_claim (cfg : Settings ℚ) (a k : String) (times : List ℚ)
    (w : ℤ) (st : RLState)
    (ha : cfg.api_auth_key = some a) (hane : a ≠ "") (hk : k ≠ "")
    (hmax : cfg.rate_limit_max_requests = 10)
    (hwin : cfg.rate_limit_window_seconds = 60)
    (hw : ∀ t ∈ times, windowIndex t 60 = w)
    (h0 : st (k, w) = 0) :
    ((runCalls cfg (some k) times st).1
      = List.replicate (min times.length 10) true
        ++ List.replicate (times.length - 10) false)
    ∧ ((runCalls cfg (some k) times st).2 (k, w) = min times.length 10)
    ∧ (∀ p : String × ℤ, p.1 ≠ k → (runCalls cfg (some k) times st).2 p = st p)
    ∧ (∀ (cfg2 : Settings ℚ) (key2 : Option String) (now2 : ℚ) (st2 : RLState),
        pyFalsy cfg2.api_auth_key = true →
        rate_limit_guard cfg2 key2 now2 st2 = (true, st2)) := by
  have hw' : ∀ t ∈ times, windowIndex t cfg.rate_limit_window_seconds = w := by
    intro t ht
    rw [hwin]
    exact hw t ht
  have hinv := runCalls_window_invariant cfg a k ha hane hk w times st hw'
    (by rw [h0]; omega)
  rw [h0, hmax] at hinv
  refine ⟨?_, ?_, hinv.2.2, ?_⟩
  · rw [hinv.1]
  · rw [hinv.2.1]
    omega
  · intro cfg2 key2 now2 st2 h
    exact rate_limit_guard_disabled cfg2 key2 now2 st2 h

/-- Witness for C5: with key "k1", auth configured, and 11 calls at times
1..11 (all in fixed window 0 of the 60-second scheme) starting from zero
counters, the first 10 calls pass, the 11th is rejected, the final counter
is 10, and counters of other keys are untouched. -/
theorem rate_limit_claim_witness :
    (∀ t ∈ ([1, 2, 3, 4, 5, 6, 7, 8, 9, 10, 11] : List ℚ), windowIndex t 60 = 0) ∧
    ((fun _ => 0 : RLState) ("k1", 0) = 0) ∧
    ((runCalls { defaultSettings with api_auth_key := some "secret" } (some "k1")
        [1, 2, 3, 4, 5, 6, 7, 8, 9, 10, 11] (fun _ => 0)).1
      = List.replicate (min ([1, 2, 3, 4, 5, 6, 7, 8, 9, 10, 11] : List ℚ).length 10) true
        ++ List.replicate (([1, 2, 3, 4, 5, 6, 7, 8, 9, 10, 11] : List ℚ).length - 10) false)
    ∧ ((runCalls { defaultSettings with api_auth_key := some "secret" } (some "k1")
        [1, 2, 3, 4, 5, 6, 7, 8, 9, 10, 11] (fun _ => 0)).2 ("k1", 0)
      = min ([1, 2, 3, 4, 5, 6, 7, 8, 9, 10, 11] : List ℚ).length 10)
    ∧ (∀ p : String × ℤ, p.1 ≠ "k1" →
        (runCalls { defaultSettings with api_auth_key := some "secret" } (some "k1")
          [1, 2, 3, 4, 5, 6, 7, 8, 9, 10, 11] (fun _ => 0)).2 p = (fun _ => 0 : RLState) p) := by
  have hw : ∀ t ∈ ([1, 2, 3, 4, 5, 6, 7, 8, 9, 10, 11] : List ℚ), windowIndex t 60 = 0 := by
    intro t ht
    fin_cases ht <;> norm_num [windowIndex]
  have h := rate_limit_claim { defaultSettings with api_auth_key := some "secret" }
    "secret" "k1" [1, 2, 3, 4, 5, 6, 7, 8, 9, 10, 11] 0 (fun _ => 0)
    rfl (by simp) (by simp) rfl rfl hw rfl
  exact ⟨hw, rfl, h.1, h.2.1, h.2.2.1⟩

/-- Scores sorted in non-increasing order (every pair, hence every
adjacent pair). -/
def SortedDesc {S : Type} [LinearOrderedField S] (l : List (Cand S)) : Prop :=
  List.Pairwise (fun a b => b.similarity_score ≤ a.similarity_score) l

/-- `insertDesc` inserts its element, permuting nothing else. -/
theorem insertDesc_perm {S : Type} [LinearOrderedField S] (c : Cand S) :
    ∀ l : List (Cand S), (insertDesc c l).Perm (c :: l)
  | [] => List.Perm.refl _
  | d :: ds => by
    unfold insertDesc
    by_cases h : c.similarity_score ≤ d.similarity_score
    · rw [if_pos h]
      exact ((insertDesc_perm c ds).cons d).trans (List.Perm.swap c d ds)
    · rw [if_neg h]

/-- `insertDesc` preserves descending sortedness. -/
theorem insertDesc_sorted {S : Type} [LinearOrderedField S] (c : Cand S) :
    ∀ l : List (Cand S), SortedDesc l → SortedDesc (insertDesc c l)
  | [], _ => List.pairwise_singleton _ _
  | d :: ds, h => by
    rcases List.pairwise_cons.mp h with ⟨hd, hds⟩
    unfold insertDesc
    by_cases hle : c.similarity_score ≤ d.similarity_score
    · rw [if_pos hle]
      refine List.pairwise_cons.mpr ⟨?_, insertDesc_sorted c ds hds⟩
      intro x hx
      have hx2 : x ∈ c :: ds := (insertDesc_perm c ds).mem_iff.mp hx
      rcases List.mem_cons.mp hx2 with hx' | hx'
      · rw [hx']; exact hle
      · exact hd x hx'
    · rw [if_neg hle]
      refine List.pairwise_cons.mpr ⟨?_, h⟩
      intro x hx
      rcases List.mem_cons.mp hx with hx' | hx'
      · rw [hx']; exact le_of_lt (lt_of_not_le hle)
      · exact le_trans (hd x hx') (le_of_lt (lt_of_not_le hle))

/-- Stability of one insertion: among the elements of any fixed score `s`,
the inserted element lands LAST (it is placed after every element of score
greater than or equal to its own). -/
theorem insertDesc_filter {S : Type} [LinearOrderedField S] (c : Cand S) (s : S) :
    ∀ l : List (Cand S), SortedDesc l →
      (insertDesc c l).filter (fun x => x.similarity_score = s)
        = l.filter (fun x => x.similarity_score = s)
          ++ if c.similarity_score = s then [c] else []
  | [], _ => by
    by_cases hcs : c.similarity_score = s <;>
      simp [insertDesc, List.filter_cons, hcs]
  | d :: ds, h => by
    rcases List.pairwise_cons.mp h with ⟨hd, hds⟩
    unfold insertDesc
    by_cases hle : c.similarity_score ≤ d.similarity_score
    · rw [if_pos hle]
      by_cases hdss : d.similarity_score = s <;>
        simp [List.filter_cons, hdss, insertDesc_filter c s ds hds]
    · rw [if_neg hle]
      have hlt : d.similarity_score < c.similarity_score := lt_of_not_le hle
      by_cases hcs : c.similarity_score = s
      · have hnil : (d :: ds).filter (fun x => x.similarity_score = s) = [] := by
          rw [List.filter_eq_nil_iff]
          intro x hx
          rcases List.mem_cons.mp hx with hx' | hx'
          · simp only [decide_eq_true_eq]
            rw [hx']
            intro hcontra
            rw [hcontra] at hlt
            exact absurd hcs (by intro h2; exact absurd h2 (ne_of_gt hlt))
          · simp only [decide_eq_true_eq]
            intro hcontra
            have hxd := hd x hx'
            rw [hcontra, ← hcs] at hxd
            exact absurd hxd (not_le.mpr hlt)
        rw [hnil]
        simp [List.filter_cons, hcs, hnil]
      · simp [List.filter_cons, hcs]

/-- Folding `insertDesc` keeps the accumulator sorted. -/
theorem foldl_insertDesc_sorted {S : Type} [LinearOrderedField S] :
    ∀ (l acc : List (Cand S)), SortedDesc acc →
      SortedDesc (l.foldl (fun acc c => insertDesc c acc) acc)
  | [], _, h => h
  | c :: l, acc, h =>
    foldl_insertDesc_sorted l (insertDesc c acc) (insertDesc_sorted c acc h)

/-- Folding `insertDesc` is a permutation of appending. -/
theorem foldl_insertDesc_perm {S : Type} [LinearOrderedField S] :
    ∀ (l acc : List (Cand S)),
      (l.foldl (fun acc c => insertDesc c acc) acc).Perm (acc ++ l)
  | [], acc => by simp
  | c :: l, acc => by
    refine (foldl_insertDesc_perm l (insertDesc c acc)).trans ?_
    refine (List.Perm.append_right l (insertDesc_perm c acc)).trans ?_
    have : (c :: acc) ++ l = c :: (acc ++ l) := by simp
    rw [this]
    exact List.perm_middle.symm

/-- Folding `insertDesc` is stable: for every score, the elements of that
score appear in the output in accumulator-then-input order. -/
theorem foldl_insertDesc_filter {S : Type} [LinearOrderedField S] (s : S) :
    ∀ (l acc : List (Cand S)), SortedDesc acc →
      (l.foldl (fun acc c => insertDesc c acc) acc).filter
          (fun x => x.similarity_score = s)
        = acc.filter (fun x => x.similarity_score = s)
          ++ l.filter (fun x => x.similarity_score = s)
  | [], acc, _ => by simp
  | c :: l, acc, h => by
    rw [List.foldl_cons,
      foldl_insertDesc_filter s l (insertDesc c acc) (insertDesc_sorted c acc h),
      insertDesc_filter c s acc h]
    by_cases hcs : c.similarity_score = s <;>
      simp [List.filter_cons, hcs]

/-- `sortDesc` sorts in non-increasing score order. -/
theorem sortDesc_sorted {S : Type} [LinearOrderedField S] (l : List (Cand S)) :
    SortedDesc (sortDesc l) :=
  foldl_insertDesc_sorted l [] List.Pairwise.nil

/-- `sortDesc` permutes its input. -/
theorem sortDesc_perm {S : Type} [LinearOrderedField S] (l : List (Cand S)) :
    (sortDesc l).Perm l := by
  simpa [sortDesc] using foldl_insertDesc_perm l []

/-- `sortDesc` is stable: elements of equal score keep their input order. -/
theorem sortDesc_filter {S : Type} [LinearOrderedField S] (l : List (Cand S)) (s : S) :
    (sortDesc l).filter (fun x => x.similarity_score = s)
      = l.filter (fun x => x.similarity_score = s) := by
  simpa [sortDesc] using foldl_insertDesc_filter s l [] List.Pairwise.nil

/-- A record is "below threshold" for the scan when its embedding does not
parse (skipped) or its similarity computes to a value below 0.85. -/
def belowThreshold {S : Type} [LinearOrderedField S]
    (sim : List ℚ → List ℚ → Except CosErr S) (e : List ℚ) (r : MemRecord) : Prop :=
  r.emb = .invalid ∨ ∃ v s, r.emb = .valid v ∧ sim e v = .ok s ∧ s < 0.85

/-- Scan step: a non-parsing row is skipped. -/
theorem findDup_cons_invalid {S : Type} [LinearOrderedField S]
    {sim : List ℚ → List ℚ → Except CosErr S} {e : List ℚ}
    {r : MemRecord} {rs : List MemRecord} (h : r.emb = .invalid) :
    findDup sim e (r :: rs) = findDup sim e rs := by
  simp [findDup, h]

/-- Scan step: a `cosine_similarity` error propagates. -/
theorem findDup_cons_error {S : Type} [LinearOrderedField S]
    {sim : List ℚ → List ℚ → Except CosErr S} {e v : List ℚ}
    {r : MemRecord} {rs : List MemRecord} {err : CosErr}
    (hv : r.emb = .valid v) (hs : sim e v = .error err) :
    findDup sim e (r :: rs) = .error err := by
  simp [findDup, hv, hs]

/-- Scan step: the first row meeting the threshold is returned. -/
theorem findDup_cons_hit {S : Type} [LinearOrderedField S]
    {sim : List ℚ → List ℚ → Except CosErr S} {e v : List ℚ}
    {r : MemRecord} {rs : List MemRecord} {s : S}
    (hv : r.emb = .valid v) (hs : sim e v = .ok s) (hth : (0.85 : S) ≤ s) :
    findDup sim e (r :: rs) = .ok (some (r, s)) := by
  simp [findDup, hv, hs, hth]

/-- Scan step: a row below the threshold is passed over. -/
theorem findDup_cons_miss {S : Type} [LinearOrderedField S]
    {sim : List ℚ → List ℚ → Except CosErr S} {e v : List ℚ}
    {r : MemRecord} {rs : List MemRecord} {s : S}
    (hv : r.emb = .valid v) (hs : sim e v = .ok s) (hth : ¬ (0.85 : S) ≤ s) :
    findDup sim e (r :: rs) = findDup sim e rs := by
  simp [findDup, hv, hs, hth]

/-- The duplicate scan returns no hit exactly when every record is skipped
or scores below the threshold. -/
theorem findDup_eq_ok_none_iff {S : Type} [LinearOrderedField S]
    (sim : List ℚ → List ℚ → Except CosErr S) (e : List ℚ) :
    ∀ db : List MemRecord,
      findDup sim e db = .ok none ↔ ∀ r ∈ db, belowThreshold sim e r
  | [] => by simp [findDup]
  | r :: rs => by
    cases hemb : r.emb with
    | invalid =>
      rw [findDup_cons_invalid hemb, findDup_eq_ok_none_iff sim e rs]
      constructor
      · intro h r' hr'
        rcases List.mem_cons.mp hr' with h' | h'
        · rw [h']; exact Or.inl hemb
        · exact h r' h'
      · intro h r' hr'
        exact h r' (List.mem_cons_of_mem r hr')
    | valid v =>
      cases hsim : sim e v with
      | error err =>
        rw [findDup_cons_error hemb hsim]
        constructor
        · intro h; exact absurd h (by simp)
        · intro h
          rcases h r (List.mem_cons_self r rs) with h' | ⟨v', s', hv', hs', _⟩
          · rw [hemb] at h'; exact absurd h' (by simp)
          · rw [hemb] at hv'
            injection hv' with hvv
            rw [hvv] at hsim
            rw [hsim] at hs'
            exact absurd hs' (by simp)
      | ok s =>
        by_cases hth : (0.85 : S) ≤ s
        · rw [findDup_cons_hit hemb hsim hth]
          constructor
          · intro h; exact absurd h (by simp)
          · intro h
            rcases h r (List.mem_cons_self r rs) with h' | ⟨v', s', hv', hs', hlt⟩
            · rw [hemb] at h'; exact absurd h' (by simp)
            · rw [hemb] at hv'
              injection hv' with hvv
              rw [hvv] at hsim
              rw [hsim] at hs'
              injection hs' with hss
              rw [← hss] at hlt
              exact absurd hth (not_le.mpr hlt)
        · rw [findDup_cons_miss hemb hsim hth, findDup_eq_ok_none_iff sim e rs]
          constructor
          · intro h r' hr'
            rcases List.mem_cons.mp hr' with h' | h'
            · rw [h']
              exact Or.inr ⟨v, s, hemb, hsim, not_le.mp hth⟩
            · exact h r' h'
          · intro h r' hr'
            exact h r' (List.mem_cons_of_mem r hr')

/-- The duplicate scan stops at the FIRST record meeting the threshold:
everything before it in scan order is skipped or strictly below 0.85. -/
theorem findDup_eq_ok_some {S : Type} [LinearOrderedField S]
    (sim : List ℚ → List ℚ → Except CosErr S) (e : List ℚ) :
    ∀ (db : List MemRecord) (r : MemRecord) (s : S),
      findDup sim e db = .ok (some (r, s)) →
      ∃ pre post v, db = pre ++ r :: post ∧ r.emb = .valid v ∧
        sim e v = .ok s ∧ (0.85 : S) ≤ s ∧
        ∀ r' ∈ pre, belowThreshold sim e r'
  | [], r, s, h => absurd h (by simp [findDup])
  | rr :: rs, r, s, h => by
    cases hemb : rr.emb with
    | invalid =>
      rw [findDup_cons_invalid hemb] at h
      rcases findDup_eq_ok_some sim e rs r s h with ⟨pre, post, v, hdb, hv, hs, hth, hpre⟩
      refine ⟨rr :: pre, post, v, by rw [hdb, List.cons_append], hv, hs, hth, ?_⟩
      intro r' hr'
      rcases List.mem_cons.mp hr' with h' | h'
      · rw [h']; exact Or.inl hemb
      · exact hpre r' h'
    | valid v =>
      cases hsim : sim e v with
      | error err =>
        rw [findDup_cons_error hemb hsim] at h
        exact absurd h (by simp)
      | ok s' =>
        by_cases hth : (0.85 : S) ≤ s'
        · rw [findDup_cons_hit hemb hsim hth] at h
          injection h with h1
          injection h1 with h2
          rw [Prod.mk.injEq] at h2
          refine ⟨[], rs, v, ?_, ?_, ?_, ?_, by intro r' hr'; exact absurd hr' (by simp)⟩
          · rw [List.nil_append, h2.1]
          · rw [← h2.1]; exact hemb
          · rw [← h2.2]; exact hsim
          · rw [← h2.2]; exact hth
        · rw [findDup_cons_miss hemb hsim hth] at h
          rcases findDup_eq_ok_some sim e rs r s h with ⟨pre, post, v', hdb, hv, hs, hth', hpre⟩
          refine ⟨rr :: pre, post, v', by rw [hdb, List.cons_append], hv, hs, hth', ?_⟩
          intro r' hr'
          rcases List.mem_cons.mp hr' with h' | h'
          · rw [h']
            exact Or.inr ⟨v, s', hemb, hsim, not_le.mp hth⟩
          · exact hpre r' h'

/-- Ranking scan step: a non-parsing row is skipped. -/
theorem computeScores_cons_invalid {S : Type} [LinearOrderedField S]
    {sim : List ℚ → List ℚ → Except CosErr S} {qe : List ℚ}
    {r : MemRecord} {rs : List MemRecord} (h : r.emb = .invalid) :
    computeScores sim qe (r :: rs) = computeScores sim qe rs := by
  simp [computeScores, h]

/-- Ranking scan step: a parsed row contributes its candidate in scan
order (when the rest of the scan succeeds). -/
theorem computeScores_cons_valid {S : Type} [LinearOrderedField S]
    {sim : List ℚ → List ℚ → Except CosErr S} {qe v : List ℚ}
    {r : MemRecord} {rs : List MemRecord} {s : S} {cs : List (Cand S)}
    (hv : r.emb = .valid v) (hs : sim qe v = .ok s)
    (hrest : computeScores sim qe rs = .ok cs) :
    computeScores sim qe (r :: rs)
      = .ok ({ memory_id := r.id, text := r.text, similarity_score := s } :: cs) := by
  simp [computeScores, hv, hs, hrest]

/-- Every parseable record of the table shows up in a successful ranking
scan (full scan, no early termination). -/
theorem computeScores_mem {S : Type} [LinearOrderedField S]
    (sim : List ℚ → List ℚ → Except CosErr S) (qe : List ℚ) :
    ∀ (db : List MemRecord) (scan : List (Cand S)),
      computeScores sim qe db = .ok scan →
      ∀ r ∈ db, ∀ v, r.emb = .valid v →
        ∃ s, sim qe v = .ok s ∧
          ({ memory_id := r.id, text := r.text, similarity_score := s } : Cand S) ∈ scan
  | [], scan, _, r, hr, _, _ => absurd hr (by simp)
  | rr :: rs, scan, h, r, hr, v, hv => by
    cases hemb : rr.emb with
    | invalid =>
      rw [computeScores_cons_invalid hemb] at h
      rcases List.mem_cons.mp hr with h' | h'
      · rw [h'] at hv; rw [hemb] at hv; exact absurd hv (by simp)
      · exact computeScores_mem sim qe rs scan h r h' v hv
    | valid v' =>
      cases hsim : sim qe v' with
      | error err =>
        rw [show computeScores sim qe (rr :: rs) = .error err from by
          simp [computeScores, hemb, hsim]] at h
        exact absurd h (by simp)
      | ok s' =>
        cases hrest : computeScores sim qe rs with
        | error err =>
          rw [show computeScores sim qe (rr :: rs) = .error err from by
            simp [computeScores, hemb, hsim, hrest]] at h
          exact absurd h (by simp)
        | ok cs =>
          rw [computeScores_cons_valid hemb hsim hrest] at h
          injection h with h1
          rcases List.mem_cons.mp hr with h' | h'
          · refine ⟨s', ?_, ?_⟩
            · rw [h'] at hv
              rw [hemb] at hv
              injection hv with hvv
              rw [hvv] at hsim
              exact hsim
            · rw [← h1, h']
              exact List.mem_cons_self _ _
          · rcases computeScores_mem sim qe rs cs hrest r h' v hv with ⟨s, hs, hmem⟩
            exact ⟨s, hs, by rw [← h1]; exact List.mem_cons_of_mem _ hmem⟩

/-- Every candidate of a successful ranking scan comes from a record of
the table whose embedding parsed. -/
theorem computeScores_provenance {S : Type} [LinearOrderedField S]
    (sim : List ℚ → List ℚ → Except CosErr S) (qe : List ℚ) :
    ∀ (db : List MemRecord) (scan : List (Cand S)),
      computeScores sim qe db = .ok scan →
      ∀ c ∈ scan, ∃ r ∈ db, ∃ v, r.emb = .valid v ∧
        c.memory_id = r.id ∧ c.text = r.text ∧ sim qe v = .ok c.similarity_score
  | [], scan, h, c, hc => by
    rw [show computeScores sim qe ([] : List MemRecord) = .ok [] from by
      simp [computeScores]] at h
    injection h with h1
    rw [← h1] at hc
    exact absurd hc (by simp)
  | rr :: rs, scan, h, c, hc => by
    cases hemb : rr.emb with
    | invalid =>
      rw [computeScores_cons_invalid hemb] at h
      rcases computeScores_provenance sim qe rs scan h c hc with ⟨r, hr, hrest⟩
      exact ⟨r, List.mem_cons_of_mem rr hr, hrest⟩
    | valid v' =>
      cases hsim : sim qe v' with
      | error err =>
        rw [show computeScores sim qe (rr :: rs) = .error err from by
          simp [computeScores, hemb, hsim]] at h
        exact absurd h (by simp)
      | ok s' =>
        cases hrest : computeScores sim qe rs with
        | error err =>
          rw [show computeScores sim qe (rr :: rs) = .error err from by
            simp [computeScores, hemb, hsim, hrest]] at h
          exact absurd h (by simp)
        | ok cs =>
          rw [computeScores_cons_valid hemb hsim hrest] at h
          injection h with h1
          rw [← h1] at hc
          rcases List.mem_cons.mp hc with h' | h'
          · refine ⟨rr, List.mem_cons_self rr rs, v', hemb, ?_, ?_, ?_⟩
            · rw [h']
            · rw [h']
            · rw [h']
              exact hsim
          · rcases computeScores_provenance sim qe rs cs hrest c h' with ⟨r, hr, hrest'⟩
            exact ⟨r, List.mem_cons_of_mem rr hr, hrest'⟩

/-- Inversion of a successful `store_memory` call: the returned cache is
the embedding cache after the embed step, and the outcome is either a
duplicate report with untouched table or an insertion of the freshly
identified row at the end of the table. -/
theorem store_memory_inv {S : Type} [LinearOrderedField S]
    {sim : List ℚ → List ℚ → Except CosErr S} {provider : String → List ℚ}
    {freshId text : String} {meta : Metadata} {cache : Cache}
    {db : List MemRecord} {res : StoreResult S} {cache' : Cache}
    {db' : List MemRecord} {e : List ℚ} {cache1 : Cache}
    (hemb : embed_text provider cache (pyStrip text) = .ok (e, cache1))
    (hok : store_memory sim provider freshId text meta cache db
      = .ok (res, cache', db')) :
    cache' = cache1 ∧
    ((∃ r s, findDup sim e db = .ok (some (r, s)) ∧
        res = { duplicate_detected := true, memory_id := r.id,
                existing_memory_preview := some r.text,
                similarity_score := some s } ∧ db' = db) ∨
     (findDup sim e db = .ok none ∧
        res = { duplicate_detected := false, memory_id := freshId,
                existing_memory_preview := none, similarity_score := none } ∧
        db' = db ++ [{ id := freshId, text := pyStrip text, emb := .valid e,
                       timestamp := meta.timestamp,
                       language := meta.language.getD "he",
                       location := meta.location }])) := by
  by_cases hne : pyStrip text = ""
  · rw [show store_memory sim provider freshId text meta cache db
        = .error .emptyInput from by unfold store_memory; rw [if_pos hne]] at hok
    exact absurd hok (by simp)
  · unfold store_memory at hok
    rw [if_neg hne] at hok
    simp only [hemb] at hok
    cases hfd : findDup sim e db with
    | error err =>
      rw [hfd] at hok
      exact absurd hok (by simp)
    | ok o =>
      cases o with
      | none =>
        rw [hfd] at hok
        simp only [Except.ok.injEq, Prod.mk.injEq] at hok
        exact ⟨hok.2.1.symm, Or.inr ⟨rfl, hok.1.symm, hok.2.2.symm⟩⟩
      | some rs =>
        rw [hfd] at hok
        simp only [Except.ok.injEq, Prod.mk.injEq] at hok
        exact ⟨hok.2.1.symm,
          Or.inl ⟨rs.1, rs.2, by rw [Prod.mk.eta], hok.1.symm, hok.2.2.symm⟩⟩


/-- Claim C1: duplicate detection in `store_memory` is a short-circuiting
linear scan in storage order — the FIRST existing record whose similarity
reaches 0.85 is reported as the duplicate (records before it are skipped
or score strictly below 0.85, nothing is said of later records); when no
record qualifies, a new record carrying the freshly generated unique id is
appended; and per call exactly one of {insert, no insert} happens, decided
by the duplicate flag. -/
theorem store_duplicate_scan_claim {S : Type} [LinearOrderedField S]
    (sim : List ℚ → List ℚ → Except CosErr S) (provider : String → List ℚ)
    (freshId text : String) (meta : Metadata) (cache : Cache)
    (db : List MemRecord) (e : List ℚ) (cache1 : Cache)
    (res : StoreResult S) (cache' : Cache) (db' : List MemRecord)
    (hemb : embed_text provider cache (pyStrip text) = .ok (e, cache1))
    (hfresh : freshId ∉ db.map MemRecord.id)
    (hok : store_memory sim provider freshId text meta cache db
      = .ok (res, cache', db')) :
    ((res.duplicate_detected = true ∧ db' = db) ∨
     (res.duplicate_detected = false ∧
       db' = db ++ [{ id := freshId, text := pyStrip text, emb := .valid e,
                      timestamp := meta.timestamp,
                      language := meta.language.getD "he",
                      location := meta.location }]))
    ∧ (res.duplicate_detected = true →
        ∃ r pre post v s, db = pre ++ r :: post ∧
          res.memory_id = r.id ∧ res.existing_memory_preview = some r.text ∧
          res.similarity_score = some s ∧
          r.emb = .valid v ∧ sim e v = .ok s ∧ (0.85 : S) ≤ s ∧
          ∀ r' ∈ pre, belowThreshold sim e r')
    ∧ (res.duplicate_detected = false →
        res.memory_id = freshId ∧ freshId ∉ db.map MemRecord.id ∧
        ∀ r ∈ db, belowThreshold sim e r) := by
  rcases store_memory_inv hemb hok with ⟨-, hcase⟩
  rcases hcase with ⟨r, s, hfd, hres, hdb⟩ | ⟨hfd, hres, hdb⟩
  · rcases findDup_eq_ok_some sim e db r s hfd with ⟨pre, post, v, hsplit, hv, hs, hth, hpre⟩
    refine ⟨Or.inl ⟨by rw [hres], hdb⟩, ?_, ?_⟩
    · intro _
      exact ⟨r, pre, post, v, s, hsplit, by rw [hres], by rw [hres], by rw [hres],
        hv, hs, hth, hpre⟩
    · intro hcontra
      rw [hres] at hcontra
      exact absurd hcontra (by simp)
  · refine ⟨Or.inr ⟨by rw [hres], hdb⟩, ?_, ?_⟩
    · intro hcontra
      rw [hres] at hcontra
      exact absurd hcontra (by simp)
    · intro _
      exact ⟨by rw [hres], hfresh, (findDup_eq_ok_none_iff sim e db).mp hfd⟩

/-- Concrete similarity for executable witnesses: the score of a stored
vector is its first component. -/
def c1sim : List ℚ → List ℚ → Except CosErr ℚ := fun _ b => .ok (b.headD 0)

/-- Witness fixture rows: scores 0.5, 0.9, 0.95 in scan order. -/
def c1rec1 : MemRecord :=
  { id := "r1", text := "t1", emb := .valid [0.5], timestamp := none,
    language := "he", location := none }

def c1rec2 : MemRecord :=
  { id := "r2", text := "t2", emb := .valid [0.9], timestamp := none,
    language := "he", location := none }

def c1rec3 : MemRecord :=
  { id := "r3", text := "t3", emb := .valid [0.95], timestamp := none,
    language := "he", location := none }

def c1db : List MemRecord := [c1rec1, c1rec2, c1rec3]

def c1cache : Cache := fun s => if s = "hello" then some [1] else none

def c1res : StoreResult ℚ :=
  { duplicate_detected := true, memory_id := "r2",
    existing_memory_preview := some "t2", similarity_score := some 0.9 }

/-- Witness for C1: in a table whose rows score 0.5, 0.9, 0.95 against the
new text, the store call reports the SECOND row (score 0.9, the first one
at or above 0.85) as the duplicate even though the third row scores
higher, and inserts nothing. -/
theorem store_duplicate_scan_claim_witness :
    (embed_text (fun _ => [1]) (fun _ => none) (pyStrip "hello")
      = .ok ([1], c1cache)) ∧
    ("fresh-id" ∉ c1db.map MemRecord.id) ∧
    (store_memory c1sim (fun _ => [1]) "fresh-id" "hello"
        { timestamp := none, language := none, location := none }
        (fun _ => none) c1db = .ok (c1res, c1cache, c1db)) ∧
    (((c1res.duplicate_detected = true ∧ c1db = c1db) ∨
      (c1res.duplicate_detected = false ∧
        c1db = c1db ++ [{ id := "fresh-id", text := pyStrip "hello",
                          emb := .valid [1], timestamp := none,
                          language := (none : Option String).getD "he",
                          location := none }]))
    ∧ (c1res.duplicate_detected = true →
        ∃ r pre post v s, c1db = pre ++ r :: post ∧
          c1res.memory_id = r.id ∧ c1res.existing_memory_preview = some r.text ∧
          c1res.similarity_score = some s ∧
          r.emb = .valid v ∧ c1sim [1] v = .ok s ∧ (0.85 : ℚ) ≤ s ∧
          ∀ r' ∈ pre, belowThreshold c1sim [1] r')
    ∧ (c1res.duplicate_detected = false →
        c1res.memory_id = "fresh-id" ∧ "fresh-id" ∉ c1db.map MemRecord.id ∧
        ∀ r ∈ c1db, belowThreshold c1sim [1] r)) := by
  have hemb : embed_text (fun _ => [1]) (fun _ => none) (pyStrip "hello")
      = .ok ([1], c1cache) := rfl
  have hfresh : "fresh-id" ∉ c1db.map MemRecord.id := by
    simp [c1db, c1rec1, c1rec2, c1rec3]
  have hne : ¬ (pyStrip "hello" = "") := by
    rw [show pyStrip "hello" = "hello" from rfl]
    simp
  have hfd : findDup c1sim [1] c1db = .ok (some (c1rec2, 0.9)) := by
    norm_num [findDup, c1sim, c1db, c1rec1, c1rec2, c1rec3]
  have hok : store_memory c1sim (fun _ => [1]) "fresh-id" "hello"
      { timestamp := none, language := none, location := none }
      (fun _ => none) c1db = .ok (c1res, c1cache, c1db) := by
    unfold store_memory
    rw [if_neg hne]
    simp only [hemb, hfd]
    rfl
  exact ⟨hemb, hfresh, hok,
    store_duplicate_scan_claim c1sim (fun _ => [1]) "fresh-id" "hello"
      { timestamp := none, language := none, location := none }
      (fun _ => none) c1db [1] c1cache c1res c1cache c1db hemb hfresh hok⟩

/-- Claim C8: a successful `query_memory` ranks by scanning the FULL record
set (every parseable record contributes a candidate; no early
termination), returns adjacent scores in non-increasing order, breaks ties
by the stable storage scan order (for every score, the candidates of that
score appear in scan order), and truncates the sorted list to at most
`top_k` entries. -/
theorem query_rank_claim {S : Type} [LinearOrderedField S]
    (sim : List ℚ → List ℚ → Except CosErr S) (provider : String → List ℚ)
    (query : String) (top_k : ℕ) (cache : Cache) (db : List MemRecord)
    (qe : List ℚ) (cache1 : Cache) (scan : List (Cand S))
    (res : List (Cand S)) (cache' : Cache)
    (hemb : embed_text provider cache (pyStrip query) = .ok (qe, cache1))
    (hscan : computeScores sim qe db = .ok scan)
    (hq : query_memory sim provider query top_k cache db = .ok (res, cache')) :
    res.Chain' (fun a b => b.similarity_score ≤ a.similarity_score)
    ∧ res.length = min top_k scan.length
    ∧ res = (sortDesc scan).take top_k
    ∧ (∀ s : S, (sortDesc scan).filter (fun c => c.similarity_score = s)
        = scan.filter (fun c => c.similarity_score = s))
    ∧ (∀ r ∈ db, ∀ v, r.emb = .valid v →
        ∃ s, sim qe v = .ok s ∧
          ({ memory_id := r.id, text := r.text, similarity_score := s } : Cand S) ∈ scan) := by
  have hne : ¬ (pyStrip query = "") := by
    intro h
    rw [show query_memory sim provider query top_k cache db = .error .emptyInput
      from by unfold query_memory; rw [if_pos h]] at hq
    exact absurd hq (by simp)
  have htk : ¬ (top_k = 0) := by
    intro h
    rw [show query_memory sim provider query top_k cache db = .error .invalidTopK
      from by unfold query_memory; rw [if_neg hne, if_pos h]] at hq
    exact absurd hq (by simp)
  have hres : res = (sortDesc scan).take top_k := by
    unfold query_memory at hq
    rw [if_neg hne, if_neg htk] at hq
    simp only [hemb] at hq
    by_cases hdb : db = []
    · rw [if_pos hdb] at hq
      rw [hdb] at hscan
      have hscan0 : scan = [] := by
        rw [show computeScores sim qe ([] : List MemRecord) = .ok ([] : List (Cand S))
          from by simp [computeScores]] at hscan
        injection hscan with h1
        exact h1.symm
      simp only [Except.ok.injEq, Prod.mk.injEq] at hq
      rw [← hq.1, hscan0]
      simp [sortDesc]
    · rw [if_neg hdb] at hq
      simp only [hscan] at hq
      simp only [Except.ok.injEq, Prod.mk.injEq] at hq
      exact hq.1.symm
  refine ⟨?_, ?_, hres, fun s => sortDesc_filter scan s,
    computeScores_mem sim qe db scan hscan⟩
  · rw [hres]
    exact (((sortDesc_sorted scan)).sublist (List.take_sublist top_k (sortDesc scan))).chain'
  · rw [hres, List.length_take, (sortDesc_perm scan).length_eq]

/-- Witness fixtures for C8: rows scoring 0.5, 0.9, 0.9 in scan order. -/
def c8sim : List ℚ → List ℚ → Except CosErr ℚ := fun _ b => .ok (b.headD 0)

def c8db : List MemRecord :=
  [{ id := "r1", text := "t1", emb := .valid [0.5], timestamp := none,
     language := "he", location := none },
   { id := "r2", text := "t2", emb := .valid [0.9], timestamp := none,
     language := "he", location := none },
   { id := "r3", text := "t3", emb := .valid [0.9], timestamp := none,
     language := "he", location := none }]

def c8cache : Cache := fun s => if s = "q" then some [1] else none

def c8scan : List (Cand ℚ) :=
  [{ memory_id := "r1", text := "t1", similarity_score := 0.5 },
   { memory_id := "r2", text := "t2", similarity_score := 0.9 },
   { memory_id := "r3", text := "t3", similarity_score := 0.9 }]

def c8res : List (Cand ℚ) :=
  [{ memory_id := "r2", text := "t2", similarity_score := 0.9 },
   { memory_id := "r3", text := "t3", similarity_score := 0.9 }]

/-- Witness for C8: querying the 0.5/0.9/0.9 table with `top_k = 2` yields
the two 0.9 candidates in stable scan order (`r2` before `r3`), sorted
non-increasingly and truncated to 2 entries. -/
theorem query_rank_claim_witness :
    (embed_text (fun _ => [1]) (fun _ => none) (pyStrip "q") = .ok ([1], c8cache)) ∧
    (computeScores c8sim [1] c8db = .ok c8scan) ∧
    (query_memory c8sim (fun _ => [1]) "q" 2 (fun _ => none) c8db
      = .ok (c8res, c8cache)) ∧
    (c8res.Chain' (fun a b => b.similarity_score ≤ a.similarity_score)
    ∧ c8res.length = min 2 c8scan.length
    ∧ c8res = (sortDesc c8scan).take 2
    ∧ (∀ s : ℚ, (sortDesc c8scan).filter (fun c => c.similarity_score = s)
        = c8scan.filter (fun c => c.similarity_score = s))
    ∧ (∀ r ∈ c8db, ∀ v, r.emb = .valid v →
        ∃ s, c8sim [1] v = .ok s ∧
          ({ memory_id := r.id, text := r.text, similarity_score := s } : Cand ℚ) ∈ c8scan)) := by
  have hemb : embed_text (fun _ => [1]) (fun _ => none) (pyStrip "q")
      = .ok ([1], c8cache) := rfl
  have hscan : computeScores c8sim [1] c8db = .ok c8scan := rfl
  have hne : ¬ (pyStrip "q" = "") := by
    rw [show pyStrip "q" = "q" from rfl]
    simp
  have hq : query_memory c8sim (fun _ => [1]) "q" 2 (fun _ => none) c8db
      = .ok (c8res, c8cache) := by
    unfold query_memory
    rw [if_neg hne, if_neg (by simp)]
    simp only [hemb, hscan]
    rw [if_neg (by simp [c8db])]
    norm_num [sortDesc, insertDesc, c8scan, c8res]
  exact ⟨hemb, hscan, hq,
    query_rank_claim c8sim (fun _ => [1]) "q" 2 (fun _ => none) c8db
      [1] c8cache c8scan c8res c8cache hemb hscan hq⟩

/-- Removing a non-parsing row anywhere in the table does not change the
duplicate scan. -/
theorem findDup_middle_invalid {S : Type} [LinearOrderedField S]
    (sim : List ℚ → List ℚ → Except CosErr S) (e : List ℚ)
    (bad : MemRecord) (db₂ : List MemRecord) (hbad : bad.emb = .invalid) :
    ∀ db₁ : List MemRecord,
      findDup sim e (db₁ ++ bad :: db₂) = findDup sim e (db₁ ++ db₂)
  | [] => by
    rw [List.nil_append, List.nil_append, findDup_cons_invalid hbad]
  | r :: rs => by
    rw [List.cons_append, List.cons_append]
    cases hemb : r.emb with
    | invalid =>
      rw [findDup_cons_invalid hemb, findDup_cons_invalid hemb]
      exact findDup_middle_invalid sim e bad db₂ hbad rs
    | valid v =>
      cases hsim : sim e v with
      | error err =>
        rw [findDup_cons_error hemb hsim, findDup_cons_error hemb hsim]
      | ok s =>
        by_cases hth : (0.85 : S) ≤ s
        · rw [findDup_cons_hit hemb hsim hth, findDup_cons_hit hemb hsim hth]
        · rw [findDup_cons_miss hemb hsim hth, findDup_cons_miss hemb hsim hth]
          exact findDup_middle_invalid sim e bad db₂ hbad rs

/-- Removing a non-parsing row anywhere in the table does not change the
ranking scan. -/
theorem computeScores_middle_invalid {S : Type} [LinearOrderedField S]
    (sim : List ℚ → List ℚ → Except CosErr S) (e : List ℚ)
    (bad : MemRecord) (db₂ : List MemRecord) (hbad : bad.emb = .invalid) :
    ∀ db₁ : List MemRecord,
      computeScores sim e (db₁ ++ bad :: db₂) = computeScores sim e (db₁ ++ db₂)
  | [] => by
    rw [List.nil_append, List.nil_append, computeScores_cons_invalid hbad]
  | r :: rs => by
    rw [List.cons_append, List.cons_append]
    cases hemb : r.emb with
    | invalid =>
      rw [computeScores_cons_invalid hemb, computeScores_cons_invalid hemb]
      exact computeScores_middle_invalid sim e bad db₂ hbad rs
    | valid v =>
      cases hsim : sim e v with
      | error err =>
        rw [show computeScores sim e (r :: (rs ++ bad :: db₂)) = .error err from by
            simp [computeScores, hemb, hsim],
          show computeScores sim e (r :: (rs ++ db₂)) = .error err from by
            simp [computeScores, hemb, hsim]]
      | ok s =>
        simp only [computeScores, hemb, hsim]
        rw [computeScores_middle_invalid sim e bad db₂ hbad rs]

/-- Claim C10: a stored record whose embedding field does not parse as a
numeric vector (undecodable JSON or wrong element type) is silently
skipped by both the duplicate-detection scan and the query ranking scan —
both behave exactly as on the table with that record removed, so it is
never reported as a duplicate and never appears among the returned
candidates (every returned candidate stems from a record that parsed) —
and the store and query operations complete with the same outcome as
without the record instead of failing. -/
theorem invalid_embedding_skipped_claim {S : Type} [LinearOrderedField S]
    (sim : List ℚ → List ℚ → Except CosErr S)
    (db₁ db₂ : List MemRecord) (bad : MemRecord)
    (hbad : bad.emb = .invalid) :
    (∀ e, findDup sim e (db₁ ++ bad :: db₂) = findDup sim e (db₁ ++ db₂))
    ∧ (∀ e, computeScores sim e (db₁ ++ bad :: db₂)
        = computeScores sim e (db₁ ++ db₂))
    ∧ (∀ (provider : String → List ℚ) (freshId text : String) (meta : Metadata)
        (cache : Cache),
        (store_memory sim provider freshId text meta cache
            (db₁ ++ bad :: db₂)).map (fun x => (x.1, x.2.1))
        = (store_memory sim provider freshId text meta cache
            (db₁ ++ db₂)).map (fun x => (x.1, x.2.1)))
    ∧ (∀ (provider : String → List ℚ) (query : String) (top_k : ℕ)
        (cache : Cache),
        query_memory sim provider query top_k cache (db₁ ++ bad :: db₂)
        = query_memory sim provider query top_k cache (db₁ ++ db₂))
    ∧ (∀ (e : List ℚ) (scan : List (Cand S)),
        computeScores sim e (db₁ ++ bad :: db₂) = .ok scan →
        ∀ c ∈ scan, ∃ r, (r ∈ db₁ ∨ r ∈ db₂) ∧ ∃ v, r.emb = .valid v ∧
          c.memory_id = r.id ∧ c.text = r.text ∧
          sim e v = .ok c.similarity_score) := by
  refine ⟨fun e => findDup_middle_invalid sim e bad db₂ hbad db₁,
    fun e => computeScores_middle_invalid sim e bad db₂ hbad db₁, ?_, ?_, ?_⟩
  · intro provider freshId text meta cache
    by_cases hne : pyStrip text = ""
    · rw [show ∀ dbx, store_memory sim provider freshId text meta cache dbx
          = .error .emptyInput from fun dbx => by unfold store_memory; rw [if_pos hne],
        show ∀ dbx, store_memory sim provider freshId text meta cache dbx
          = .error .emptyInput from fun dbx => by unfold store_memory; rw [if_pos hne]]
    · unfold store_memory
      rw [if_neg hne, if_neg hne]
      cases hembx : embed_text provider cache (pyStrip text) with
      | error err => simp [hembx, Except.map]
      | ok p =>
        obtain ⟨e1, cache1⟩ := p
        simp only [hembx]
        rw [findDup_middle_invalid sim e1 bad db₂ hbad db₁]
        cases hfd : findDup sim e1 (db₁ ++ db₂) with
        | error err => simp [hfd, Except.map]
        | ok o =>
          cases o with
          | none => simp [hfd, Except.map]
          | some rs => simp [hfd, Except.map]
  · intro provider query top_k cache
    by_cases hne : pyStrip query = ""
    · unfold query_memory
      rw [if_pos hne, if_pos hne]
    · by_cases htk : top_k = 0
      · unfold query_memory
        rw [if_neg hne, if_neg hne, if_pos htk, if_pos htk]
      · unfold query_memory
        rw [if_neg hne, if_neg hne, if_neg htk, if_neg htk]
        cases hembx : embed_text provider cache (pyStrip query) with
        | error err => simp [hembx]
        | ok p =>
          obtain ⟨e1, cache1⟩ := p
          simp only [hembx]
          have hnonnil : ¬ (db₁ ++ bad :: db₂ = []) := by
            intro h
            rcases List.append_eq_nil.mp h with ⟨-, h2⟩
            exact absurd h2 (by simp)
          rw [if_neg hnonnil]
          by_cases hnil : db₁ ++ db₂ = []
          · rw [if_pos hnil]
            rw [computeScores_middle_invalid sim e1 bad db₂ hbad db₁, hnil]
            rw [show computeScores sim e1 ([] : List MemRecord) = .ok [] from by
              simp [computeScores]]
            simp [sortDesc]
          · rw [if_neg hnil]
            rw [computeScores_middle_invalid sim e1 bad db₂ hbad db₁]
  · intro e scan hscan c hc
    rcases computeScores_provenance sim e (db₁ ++ bad :: db₂) scan hscan c hc
      with ⟨r, hr, v, hv, hid, htext, hsim⟩
    refine ⟨r, ?_, v, hv, hid, htext, hsim⟩
    rcases List.mem_append.mp hr with h1 | h2
    · exact Or.inl h1
    · rcases List.mem_cons.mp h2 with hb | h2'
      · rw [hb] at hv
        rw [hbad] at hv
        exact absurd hv (by simp)
      · exact Or.inr h2'

/-- Witness fixtures for C10: a non-parsing row between two good rows. -/
def c10sim : List ℚ → List ℚ → Except CosErr ℚ := fun _ b => .ok (b.headD 0)

def c10bad : MemRecord :=
  { id := "bx", text := "tx", emb := .invalid, timestamp := none,
    language := "he", location := none }

def c10db1 : List MemRecord :=
  [{ id := "g1", text := "s1", emb := .valid [0.3], timestamp := none,
     language := "he", location := none }]

def c10db2 : List MemRecord :=
  [{ id := "g2", text := "s2", emb := .valid [0.9], timestamp := none,
     language := "he", location := none }]

/-- Witness for C10: with a non-parsing row between two parseable rows,
both scans, the store call and the query call behave exactly as on the
two-row table, and every returned candidate stems from a parseable row. -/
theorem invalid_embedding_skipped_claim_witness :
    c10bad.emb = EmbeddingField.invalid ∧
    ((∀ e, findDup c10sim e (c10db1 ++ c10bad :: c10db2)
        = findDup c10sim e (c10db1 ++ c10db2))
    ∧ (∀ e, computeScores c10sim e (c10db1 ++ c10bad :: c10db2)
        = computeScores c10sim e (c10db1 ++ c10db2))
    ∧ (∀ (provider : String → List ℚ) (freshId text : String) (meta : Metadata)
        (cache : Cache),
        (store_memory c10sim provider freshId text meta cache
            (c10db1 ++ c10bad :: c10db2)).map (fun x => (x.1, x.2.1))
        = (store_memory c10sim provider freshId text meta cache
            (c10db1 ++ c10db2)).map (fun x => (x.1, x.2.1)))
    ∧ (∀ (provider : String → List ℚ) (query : String) (top_k : ℕ)
        (cache : Cache),
        query_memory c10sim provider query top_k cache (c10db1 ++ c10bad :: c10db2)
        = query_memory c10sim provider query top_k cache (c10db1 ++ c10db2))
    ∧ (∀ (e : List ℚ) (scan : List (Cand ℚ)),
        computeScores c10sim e (c10db1 ++ c10bad :: c10db2) = .ok scan →
        ∀ c ∈ scan, ∃ r, (r ∈ c10db1 ∨ r ∈ c10db2) ∧ ∃ v, r.emb = .valid v ∧
          c.memory_id = r.id ∧ c.text = r.text ∧
          c10sim e v = .ok c.similarity_score)) :=
  ⟨rfl, invalid_embedding_skipped_claim c10sim c10db1 c10db2 c10bad rfl⟩

/-- The candidate list of a successful `query_memory` call is sorted by
non-increasing score. -/
theorem query_memory_ok_sorted {S : Type} [LinearOrderedField S]
    {sim : List ℚ → List ℚ → Except CosErr S} {provider : String → List ℚ}
    {query : String} {top_k : ℕ} {cache : Cache} {db : List MemRecord}
    {res : List (Cand S)} {cache' : Cache}
    (hq : query_memory sim provider query top_k cache db = .ok (res, cache')) :
    SortedDesc res := by
  by_cases hne : pyStrip query = ""
  · rw [show query_memory sim provider query top_k cache db = .error .emptyInput
      from by unfold query_memory; rw [if_pos hne]] at hq
    exact absurd hq (by simp)
  by_cases htk : top_k = 0
  · rw [show query_memory sim provider query top_k cache db = .error .invalidTopK
      from by unfold query_memory; rw [if_neg hne, if_pos htk]] at hq
    exact absurd hq (by simp)
  unfold query_memory at hq
  rw [if_neg hne, if_neg htk] at hq
  cases hembx : embed_text provider cache (pyStrip query) with
  | error err =>
    rw [hembx] at hq
    exact absurd hq (by simp)
  | ok p =>
    obtain ⟨qe, cache1⟩ := p
    rw [hembx] at hq
    simp only [] at hq
    by_cases hdb : db = []
    · rw [if_pos hdb] at hq
      simp only [Except.ok.injEq, Prod.mk.injEq] at hq
      rw [← hq.1]
      exact List.Pairwise.nil
    · rw [if_neg hdb] at hq
      cases hscan : computeScores sim qe db with
      | error ce =>
        rw [hscan] at hq
        exact absurd hq (by simp)
      | ok scan =>
        rw [hscan] at hq
        simp only [Except.ok.injEq, Prod.mk.injEq] at hq
        rw [← hq.1]
        exact ((sortDesc_sorted scan)).sublist (List.take_sublist top_k (sortDesc scan))

/-- Claim C2: with the default minimum of 2 candidates, a successful query
endpoint call declares clarification exactly when at least two candidates
were returned and the score gap between the top two is at most
`clarify_score_gap` (default 0.05) — the absolute value of the top score
plays no role — and never declares clarification with fewer than two
candidates. -/
theorem clarify_gap_claim {S : Type} [LinearOrderedField S]
    (sim : List ℚ → List ℚ → Except CosErr S) (provider : String → List ℚ)
    (genQ : String → List (Cand S) → String) (cfg : Settings S)
    (query : String) (top_k : ℕ) (cache : Cache) (db : List MemRecord)
    (sessions : Sessions (List (Cand S))) (resp : QueryEndpointResponse S)
    (cache' : Cache) (sess' : Sessions (List (Cand S)))
    (hmin : cfg.clarify_min_candidates = 2)
    (hok : query_memory_endpoint sim provider genQ cfg query top_k cache db sessions
      = .ok (resp, cache', sess')) :
    (∀ c0 c1 rest, resp.candidates = c0 :: c1 :: rest →
      (resp.clarification_required = true ↔
        c0.similarity_score - c1.similarity_score ≤ cfg.clarify_score_gap))
    ∧ (resp.candidates.length < 2 → resp.clarification_required = false) := by
  by_cases hne : pyStrip query = ""
  · rw [show query_memory_endpoint sim provider genQ cfg query top_k cache db sessions
        = .error (.invalidInput "Query cannot be empty")
      from by unfold query_memory_endpoint; rw [if_pos hne]] at hok
    exact absurd hok (by simp)
  by_cases htop : top_k = 0 ∨ 100 < top_k
  · rw [show query_memory_endpoint sim provider genQ cfg query top_k cache db sessions
        = .error (.invalidInput "top_k must be between 1 and 100")
      from by unfold query_memory_endpoint; rw [if_neg hne, if_pos htop]] at hok
    exact absurd hok (by simp)
  unfold query_memory_endpoint at hok
  rw [if_neg hne, if_neg htop] at hok
  cases hq : query_memory sim provider (pyStrip query) top_k cache db with
  | error err =>
    rw [hq] at hok
    exact absurd hok (by simp)
  | ok p =>
    obtain ⟨mc, cacheq⟩ := p
    have hsorted : SortedDesc mc := query_memory_ok_sorted hq
    rw [hq] at hok
    simp only [] at hok
    rw [hmin] at hok
    by_cases hlen : 2 ≤ mc.length
    · rw [if_pos hlen] at hok
      cases mc with
      | nil => exact absurd hlen (by simp)
      | cons c0 tl =>
        cases tl with
        | nil => exact absurd hlen (by simp)
        | cons c1 rest =>
          dsimp only at hok
          have hc1c0 : c1.similarity_score ≤ c0.similarity_score := by
            rcases List.pairwise_cons.mp hsorted with ⟨hd, -⟩
            exact hd c1 (List.mem_cons_self c1 rest)
          have habs : |c0.similarity_score - c1.similarity_score|
              = c0.similarity_score - c1.similarity_score :=
            abs_of_nonneg (sub_nonneg.mpr hc1c0)
          by_cases hgap : |c0.similarity_score - c1.similarity_score|
              ≤ cfg.clarify_score_gap
          · rw [if_pos hgap] at hok
            simp only [Except.ok.injEq, Prod.mk.injEq] at hok
            rw [← hok.1]
            refine ⟨?_, ?_⟩
            · intro c0' c1' rest' hcand
              simp only [QueryEndpointResponse.candidates] at hcand
              injection hcand with h1 h2
              injection h2 with h3 h4
              constructor
              · intro _
                rw [← h1, ← h3, ← habs]
                exact hgap
              · intro _
                rfl
            · intro hcontra
              simp only [QueryEndpointResponse.candidates, List.length_cons] at hcontra
              omega
          · rw [if_neg hgap] at hok
            simp only [Except.ok.injEq, Prod.mk.injEq] at hok
            rw [← hok.1]
            refine ⟨?_, ?_⟩
            · intro c0' c1' rest' hcand
              simp only [QueryEndpointResponse.candidates] at hcand
              injection hcand with h1 h2
              injection h2 with h3 h4
              constructor
              · intro hcontra
                exact absurd hcontra (by simp)
              · intro hle
                rw [← h1, ← h3] at hle
                rw [habs] at hgap
                exact absurd hle hgap
            · intro _
              rfl
    · rw [if_neg hlen] at hok
      simp only [Except.ok.injEq, Prod.mk.injEq] at hok
      rw [← hok.1]
      refine ⟨?_, fun _ => rfl⟩
      intro c0 c1 rest hcand
      simp only [QueryEndpointResponse.candidates] at hcand
      rw [hcand] at hlen
      exact absurd (by simp : 2 ≤ (c0 :: c1 :: rest).length) hlen

/-- Witness fixtures for C2: two rows scoring 0.9 and 0.88 (gap 0.02). -/
def c2sim : List ℚ → List ℚ → Except CosErr ℚ := fun _ b => .ok (b.headD 0)

def c2db : List MemRecord :=
  [{ id := "r1", text := "t1", emb := .valid [0.9], timestamp := none,
     language := "he", location := none },
   { id := "r2", text := "t2", emb := .valid [0.88], timestamp := none,
     language := "he", location := none }]

def c2cache : Cache := fun s => if s = "q" then some [1] else none

def c2genQ : String → List (Cand ℚ) → String := fun _ _ => "Which one?"

def c2resp : QueryEndpointResponse ℚ :=
  { candidates := [{ memory_id := "r1", text := "t1", similarity_score := 0.9 },
                   { memory_id := "r2", text := "t2", similarity_score := 0.88 }],
    clarification_required := true,
    clarification_question := some "Which one?" }

/-- Witness for C2: with default settings, top scores 0.9 and 0.88
(gap 0.02 ≤ 0.05) trigger clarification, and the iff of the claim holds at
this call. -/
theorem clarify_gap_claim_witness :
    ((defaultSettings).clarify_min_candidates = 2) ∧
    (query_memory_endpoint c2sim (fun _ => [1]) c2genQ defaultSettings "q" 3
        (fun _ => none) c2db (fun _ => none) = .ok (c2resp, c2cache, fun _ => none)) ∧
    ((∀ c0 c1 rest, c2resp.candidates = c0 :: c1 :: rest →
       (c2resp.clarification_required = true ↔
         c0.similarity_score - c1.similarity_score ≤ (defaultSettings).clarify_score_gap))
    ∧ (c2resp.candidates.length < 2 → c2resp.clarification_required = false)) := by
  have hne1 : ¬ (pyStrip "q" = "") := by
    rw [show pyStrip "q" = "q" from rfl]
    simp
  have hneq : ¬ (pyStrip (pyStrip "q") = "") := by
    rw [show pyStrip (pyStrip "q") = "q" from rfl]
    simp
  have hembq : embed_text (fun _ => [1]) (fun _ => none) (pyStrip (pyStrip "q"))
      = .ok ([1], c2cache) := rfl
  have hscanq : computeScores c2sim [1] c2db
      = .ok [{ memory_id := "r1", text := "t1", similarity_score := 0.9 },
             { memory_id := "r2", text := "t2", similarity_score := 0.88 }] := rfl
  have hq : query_memory c2sim (fun _ => [1]) (pyStrip "q") 3 (fun _ => none) c2db
      = .ok ([{ memory_id := "r1", text := "t1", similarity_score := 0.9 },
              { memory_id := "r2", text := "t2", similarity_score := 0.88 }], c2cache) := by
    unfold query_memory
    rw [if_neg hneq, if_neg (by simp)]
    simp only [hembq]
    rw [if_neg (by simp [c2db])]
    simp only [hscanq]
    norm_num [sortDesc, insertDesc]
  have hok : query_memory_endpoint c2sim (fun _ => [1]) c2genQ defaultSettings "q" 3
      (fun _ => none) c2db (fun _ => none) = .ok (c2resp, c2cache, fun _ => none) := by
    unfold query_memory_endpoint
    rw [if_neg hne1, if_neg (by simp)]
    simp only [hq]
    rw [if_pos (by norm_num [defaultSettings])]
    dsimp only
    rw [if_pos (by norm_num [defaultSettings, abs_le])]
    rfl
  exact ⟨rfl, hok,
    clarify_gap_claim c2sim (fun _ => [1]) c2genQ defaultSettings "q" 3
      (fun _ => none) c2db (fun _ => none) c2resp c2cache (fun _ => none) rfl hok⟩

/-- Claim C3 (behaviour of the code, contradicting the spec): a successful
query endpoint call NEVER creates a SessionStore entry — the session map
after the call is the input map, ambiguous or not, and the response built
at agent/api/query.py line 184 carries no session id (the endpoint passes
only candidates, clarification_required and clarification_question to the
`QueryResponse` constructor, whose pydantic model declares `session_id`
REQUIRED; `create_session` of agent/api/session_store.py has no caller in
the application code, while the repository's own test
tests/test_dialog_session.py asserts that an ambiguous query returns a
`session_id`). -/
theorem query_no_session_claim {S : Type} [LinearOrderedField S]
    (sim : List ℚ → List ℚ → Except CosErr S) (provider : String → List ℚ)
    (genQ : String → List (Cand S) → String) (cfg : Settings S)
    (query : String) (top_k : ℕ) (cache : Cache) (db : List MemRecord)
    (sessions : Sessions (List (Cand S))) (resp : QueryEndpointResponse S)
    (cache' : Cache) (sess' : Sessions (List (Cand S)))
    (hok : query_memory_endpoint sim provider genQ cfg query top_k cache db sessions
      = .ok (resp, cache', sess')) :
    sess' = sessions := by
  by_cases hne : pyStrip query = ""
  · rw [show query_memory_endpoint sim provider genQ cfg query top_k cache db sessions
        = .error (.invalidInput "Query cannot be empty")
      from by unfold query_memory_endpoint; rw [if_pos hne]] at hok
    exact absurd hok (by simp)
  by_cases htop : top_k = 0 ∨ 100 < top_k
  · rw [show query_memory_endpoint sim provider genQ cfg query top_k cache db sessions
        = .error (.invalidInput "top_k must be between 1 and 100")
      from by unfold query_memory_endpoint; rw [if_neg hne, if_pos htop]] at hok
    exact absurd hok (by simp)
  unfold query_memory_endpoint at hok
  rw [if_neg hne, if_neg htop] at hok
  cases hq : query_memory sim provider (pyStrip query) top_k cache db with
  | error err =>
    rw [hq] at hok
    exact absurd hok (by simp)
  | ok p =>
    obtain ⟨mc, cacheq⟩ := p
    rw [hq] at hok
    simp only [] at hok
    by_cases hlen : cfg.clarify_min_candidates ≤ mc.length
    · rw [if_pos hlen] at hok
      cases mc with
      | nil =>
        exact absurd hok (by simp)
      | cons c0 tl =>
        cases tl with
        | nil =>
          exact absurd hok (by simp)
        | cons c1 rest =>
          dsimp only at hok
          by_cases hgap : |c0.similarity_score - c1.similarity_score|
              ≤ cfg.clarify_score_gap
          · rw [if_pos hgap] at hok
            simp only [Except.ok.injEq, Prod.mk.injEq] at hok
            exact hok.2.2.symm
          · rw [if_neg hgap] at hok
            simp only [Except.ok.injEq, Prod.mk.injEq] at hok
            exact hok.2.2.symm
    · rw [if_neg hlen] at hok
      simp only [Except.ok.injEq, Prod.mk.injEq] at hok
      exact hok.2.2.symm

/-- Witness fixtures for C3: the same ambiguous scenario with a non-empty
session store. -/
def c3sim : List ℚ → List ℚ → Except CosErr ℚ := fun _ b => .ok (b.headD 0)

def c3db : List MemRecord :=
  [{ id := "r1", text := "t1", emb := .valid [0.9], timestamp := none,
     language := "he", location := none },
   { id := "r2", text := "t2", emb := .valid [0.88], timestamp := none,
     language := "he", location := none }]

def c3cache : Cache := fun s => if s = "q" then some [1] else none

def c3genQ : String → List (Cand ℚ) → String := fun _ _ => "Which one?"

def c3sessions : Sessions (List (Cand ℚ)) :=
  fun s => if s = "old-session" then some { expires := 999, candidates := [] } else none

def c3resp : QueryEndpointResponse ℚ :=
  { candidates := [{ memory_id := "r1", text := "t1", similarity_score := 0.9 },
                   { memory_id := "r2", text := "t2", similarity_score := 0.88 }],
    clarification_required := true,
    clarification_question := some "Which one?" }

/-- Witness for C3: an ambiguous query (scores 0.9 and 0.88, required
clarification) leaves the session store exactly as it was — no
SessionStore entry is created and no session id is returned. -/
theorem query_no_session_claim_witness :
    (query_memory_endpoint c3sim (fun _ => [1]) c3genQ defaultSettings "q" 3
        (fun _ => none) c3db c3sessions = .ok (c3resp, c3cache, c3sessions)) ∧
    c3resp.clarification_required = true ∧
    c3sessions = c3sessions := by
  have hne1 : ¬ (pyStrip "q" = "") := by
    rw [show pyStrip "q" = "q" from rfl]
    simp
  have hneq : ¬ (pyStrip (pyStrip "q") = "") := by
    rw [show pyStrip (pyStrip "q") = "q" from rfl]
    simp
  have hembq : embed_text (fun _ => [1]) (fun _ => none) (pyStrip (pyStrip "q"))
      = .ok ([1], c3cache) := rfl
  have hscanq : computeScores c3sim [1] c3db
      = .ok [{ memory_id := "r1", text := "t1", similarity_score := 0.9 },
             { memory_id := "r2", text := "t2", similarity_score := 0.88 }] := rfl
  have hq : query_memory c3sim (fun _ => [1]) (pyStrip "q") 3 (fun _ => none) c3db
      = .ok ([{ memory_id := "r1", text := "t1", similarity_score := 0.9 },
              { memory_id := "r2", text := "t2", similarity_score := 0.88 }], c3cache) := by
    unfold query_memory
    rw [if_neg hneq, if_neg (by simp)]
    simp only [hembq]
    rw [if_neg (by simp [c3db])]
    simp only [hscanq]
    norm_num [sortDesc, insertDesc]
  have hok : query_memory_endpoint c3sim (fun _ => [1]) c3genQ defaultSettings "q" 3
      (fun _ => none) c3db c3sessions = .ok (c3resp, c3cache, c3sessions) := by
    unfold query_memory_endpoint
    rw [if_neg hne1, if_neg (by simp)]
    simp only [hq]
    rw [if_pos (by norm_num [defaultSettings])]
    dsimp only
    rw [if_pos (by norm_num [defaultSettings, abs_le])]
    rfl
  exact ⟨hok, rfl,
    query_no_session_claim c3sim (fun _ => [1]) c3genQ defaultSettings "q" 3
      (fun _ => none) c3db c3sessions c3resp c3cache c3sessions hok⟩

/-- Witness fixture for C9: a table with one stored record. -/
def c9db : List MemRecord :=
  [{ id := "m1", text := "Code for Dalia from work is 1234", emb := .valid [1],
     timestamp := none, language := "he", location := none }]

/-- Claim C9 (behaviour of the code, diverging from the spec on the first
half): resolving a clarification by an id that matches no stored record
fails with `InvalidInputError` (HTTP 400) — not with the `NotFound` (404)
outcome that the claim, the route's own OpenAPI declaration ("404: Chosen
memory ID not found") and the unused `MemoryNotFoundError` class describe —
while supplying neither an id nor a phrase does fail with
`InvalidInputError` as the claim states. -/
theorem clarify_wrong_error_claim :
    (clarify_resolution_endpoint (S := ℚ) (fun _ _ => .ok 0) (fun _ => [1])
        defaultSettings
        { query := "q", chosen_memory_id := some "non-existent-id-12345",
          chosen_memory_phrase := none }
        (fun _ => none) c9db
      = .error (.invalidInput "Memory with ID not found"))
    ∧ (ApiErr.invalidInput "Memory with ID not found").statusCode = 400
    ∧ ApiErr.memoryNotFound.statusCode = 404
    ∧ (clarify_resolution_endpoint (S := ℚ) (fun _ _ => .ok 0) (fun _ => [1])
        defaultSettings
        { query := "q", chosen_memory_id := none, chosen_memory_phrase := none }
        (fun _ => none) c9db
      = .error (.invalidInput
          "Either chosen_memory_id or chosen_memory_phrase must be provided")) :=
  ⟨rfl, rfl, rfl, rfl⟩

/-- The dot product of a vector with itself is its sum of squares. -/
theorem dot_self_eq_sumsq (v : List ℚ) : dot v v = sumsq v := by
  unfold dot sumsq
  induction v with
  | nil => simp
  | cons x xs ih => simp [List.zipWith_cons_cons, ih]

/-- Cosine similarity of a non-empty, nonzero-norm vector with itself
is exactly 1. -/
theorem cosine_similarity_self {v : List ℚ} (hne : v ≠ []) (hz : sumsq v ≠ 0) :
    cosine_similarity v v = .ok 1 := by
  unfold cosine_similarity
  rw [if_neg (by simp [hne]), if_neg (by simp), if_neg (by simp [hz])]
  have hnn : (0:ℝ) ≤ (sumsq v : ℝ) := by exact_mod_cast sumsq_nonneg v
  have hz' : ((sumsq v : ℚ) : ℝ) ≠ 0 := by exact_mod_cast hz
  rw [dot_self_eq_sumsq, Real.mul_self_sqrt hnn, div_self hz']

/-- Inversion of a successful `embed_text` call: the text is non-blank,
the returned cache holds the returned vector under the normalised text,
and the vector came from a cache hit or from the provider. -/
theorem embed_text_ok_inv {provider : String → List ℚ} {cache : Cache}
    {text : String} {e : List ℚ} {cacheE : Cache}
    (h : embed_text provider cache text = .ok (e, cacheE)) :
    ¬ (pyStrip text = "") ∧ cacheE (pyStrip text) = some e ∧
    (cache (pyStrip text) = some e ∨
      (cache (pyStrip text) = none ∧ e = provider (pyStrip text))) := by
  by_cases hne : pyStrip text = ""
  · rw [show embed_text provider cache text = .error .emptyInput from by
      unfold embed_text; rw [if_pos hne]] at h
    exact absurd h (by simp)
  · unfold embed_text at h
    rw [if_neg hne] at h
    cases hc : cache (pyStrip text) with
    | some v =>
      simp only [hc] at h
      simp only [Except.ok.injEq, Prod.mk.injEq] at h
      obtain ⟨hv, hcc⟩ := h
      refine ⟨hne, ?_, Or.inl ?_⟩
      · rw [← hcc, hc, hv]
      · rw [hv]
    | none =>
      simp only [hc] at h
      simp only [Except.ok.injEq, Prod.mk.injEq] at h
      obtain ⟨hv, hcc⟩ := h
      refine ⟨hne, ?_, Or.inr ⟨rfl, hv.symm⟩⟩
      rw [← hcc]
      simp [hv]

/-- A cache hit serves the stored vector and leaves the cache unchanged. -/
theorem embed_text_hit {provider : String → List ℚ} {cache : Cache}
    {text : String} {e : List ℚ}
    (hhit : cache (pyStrip text) = some e) (hne : ¬ (pyStrip text = "")) :
    embed_text provider cache text = .ok (e, cache) := by
  unfold embed_text
  rw [if_neg hne]
  simp only [hhit]

/-- A scan finding nothing in a prefix continues through an appended
suffix. -/
theorem findDup_append_none {S : Type} [LinearOrderedField S]
    (sim : List ℚ → List ℚ → Except CosErr S) (e : List ℚ) :
    ∀ db₁ db₂ : List MemRecord, findDup sim e db₁ = .ok none →
      findDup sim e (db₁ ++ db₂) = findDup sim e db₂
  | [], db₂, _ => by rw [List.nil_append]
  | r :: rs, db₂, h => by
    rw [List.cons_append]
    cases hemb : r.emb with
    | invalid =>
      rw [findDup_cons_invalid hemb] at h ⊢
      exact findDup_append_none sim e rs db₂ h
    | valid v =>
      cases hsim : sim e v with
      | error err =>
        rw [findDup_cons_error hemb hsim] at h
        exact absurd h (by simp)
      | ok s =>
        by_cases hth : (0.85 : S) ≤ s
        · rw [findDup_cons_hit hemb hsim hth] at h
          exact absurd h (by simp)
        · rw [findDup_cons_miss hemb hsim hth] at h ⊢
          exact findDup_append_none sim e rs db₂ h

/-- Counterexample to C6 as stated: if the provider hands back the zero
vector for a text, storing that text twice inserts TWICE — the second call
reports `duplicate_detected = false` with the fresh id "id2" instead of
`duplicate=true` with the first id, because `cosine_similarity` of the
zero vector with itself is defined as 0.0, below the 0.85 threshold. -/
theorem store_same_text_twice_cex :
    ((store_memory (S := ℝ) cosine_similarity (fun _ => [0]) "id1" "a"
        { timestamp := none, language := none, location := none }
        (fun _ => none) []).map (fun x => x.1.duplicate_detected) = .ok false)
    ∧ (((store_memory (S := ℝ) cosine_similarity (fun _ => [0]) "id1" "a"
        { timestamp := none, language := none, location := none }
        (fun _ => none) []).bind
        (fun x => store_memory (S := ℝ) cosine_similarity (fun _ => [0]) "id2" "a"
          { timestamp := none, language := none, location := none } x.2.1 x.2.2)).map
        (fun y => (y.1.duplicate_detected, y.1.memory_id)) = .ok (false, "id2")) := by
  have hne : ¬ (pyStrip "a" = "") := by
    rw [show pyStrip "a" = "a" from rfl]
    simp
  have hemb1 : embed_text (fun _ => [0]) (fun _ => none) (pyStrip "a")
      = .ok ([0], fun s => if s = "a" then some [0] else none) := rfl
  have h1 : store_memory (S := ℝ) cosine_similarity (fun _ => [0]) "id1" "a"
      { timestamp := none, language := none, location := none }
      (fun _ => none) []
      = .ok ({ duplicate_detected := false, memory_id := "id1",
               existing_memory_preview := none, similarity_score := none },
             (fun s => if s = "a" then some [0] else none),
             [{ id := "id1", text := "a", emb := .valid [0], timestamp := none,
                language := "he", location := none }]) := by
    unfold store_memory
    rw [if_neg hne]
    simp only [hemb1]
    rw [show findDup (S := ℝ) cosine_similarity [0] [] = .ok none from rfl]
    rfl
  have hcos : cosine_similarity [0] [0] = .ok 0 := by
    unfold cosine_similarity
    rw [if_neg (by simp), if_neg (by simp), if_pos (Or.inl (by norm_num [sumsq]))]
  have hfd2 : findDup (S := ℝ) cosine_similarity [0]
      [{ id := "id1", text := "a", emb := .valid [0], timestamp := none,
         language := "he", location := none }] = .ok none := by
    rw [findDup_cons_miss rfl hcos (by norm_num)]
    rfl
  have hemb2 : embed_text (fun _ => [0])
      (fun s => if s = "a" then some [0] else none) (pyStrip "a")
      = .ok ([0], fun s => if s = "a" then some [0] else none) := rfl
  have h2 : store_memory (S := ℝ) cosine_similarity (fun _ => [0]) "id2" "a"
      { timestamp := none, language := none, location := none }
      (fun s => if s = "a" then some [0] else none)
      [{ id := "id1", text := "a", emb := .valid [0], timestamp := none,
         language := "he", location := none }]
      = .ok ({ duplicate_detected := false, memory_id := "id2",
               existing_memory_preview := none, similarity_score := none },
             (fun s => if s = "a" then some [0] else none),
             [{ id := "id1", text := "a", emb := .valid [0], timestamp := none,
                language := "he", location := none },
              { id := "id2", text := "a", emb := .valid [0], timestamp := none,
                language := "he", location := none }]) := by
    unfold store_memory
    rw [if_neg hne]
    simp only [hemb2]
    simp only [hfd2]
    rfl
  constructor
  · rw [h1]
    rfl
  · rw [h1]
    show (store_memory (S := ℝ) cosine_similarity (fun _ => [0]) "id2" "a"
      { timestamp := none, language := none, location := none }
      (fun s => if s = "a" then some [0] else none)
      [{ id := "id1", text := "a", emb := .valid [0], timestamp := none,
         language := "he", location := none }]).map
        (fun y => (y.1.duplicate_detected, y.1.memory_id)) = .ok (false, "id2")
    rw [h2]
    rfl

/-- Claim C6 (amended): storing the same normalised text a second time,
when the first store inserted a record AND the embedding vector involved
is non-empty with nonzero norm, reports duplicate=true with similarity
score exactly 1 (so at least 0.97) and returns the same memory id the
first store created, leaving table and cache unchanged.  (The nonzero-norm
proviso is forced by the counterexample `store_same_text_twice_cex`: the
cached vector is served again, and the cosine similarity of a vector with
itself is 1 only when its norm is nonzero — the source defines it as 0.0
for zero-norm vectors.) -/
theorem store_same_text_twice_amended
    (provider : String → List ℚ) (cache : Cache) (db db1 : List MemRecord)
    (text id1 id2 : String) (meta1 meta2 : Metadata)
    (res1 : StoreResult ℝ) (cache1 : Cache)
    (hprov : ∀ t, provider t ≠ [] ∧ sumsq (provider t) ≠ 0)
    (hcache : ∀ t v, cache t = some v → v ≠ [] ∧ sumsq v ≠ 0)
    (h1 : store_memory (S := ℝ) cosine_similarity provider id1 text meta1 cache db
      = .ok (res1, cache1, db1))
    (hdup : res1.duplicate_detected = false) :
    store_memory (S := ℝ) cosine_similarity provider id2 text meta2 cache1 db1
      = .ok ({ duplicate_detected := true, memory_id := res1.memory_id,
               existing_memory_preview := some (pyStrip text),
               similarity_score := some 1 }, cache1, db1)
    ∧ (0.97 : ℝ) ≤ 1 := by
  refine ⟨?_, by norm_num⟩
  by_cases hne : pyStrip text = ""
  · rw [show store_memory (S := ℝ) cosine_similarity provider id1 text meta1 cache db
        = .error .emptyInput from by unfold store_memory; rw [if_pos hne]] at h1
    exact absurd h1 (by simp)
  cases hembx : embed_text provider cache (pyStrip text) with
  | error err =>
    rw [show store_memory (S := ℝ) cosine_similarity provider id1 text meta1 cache db
        = .error err from by
      unfold store_memory; rw [if_neg hne]; simp only [hembx]] at h1
    exact absurd h1 (by simp)
  | ok p =>
    obtain ⟨e, cacheE⟩ := p
    rcases store_memory_inv hembx h1 with ⟨hcc, hcase⟩
    rcases hcase with ⟨r, s, hfd, hres, hdb⟩ | ⟨hfd, hres, hdb⟩
    · rw [hres] at hdup
      exact absurd hdup (by simp)
    · rcases embed_text_ok_inv hembx with ⟨hneE, hkeyE, hsrc⟩
      have he : e ≠ [] ∧ sumsq e ≠ 0 := by
        rcases hsrc with hhit | ⟨-, hp⟩
        · exact hcache _ e hhit
        · rw [hp]
          exact hprov _
      have hembHit : embed_text provider cache1 (pyStrip text) = .ok (e, cache1) := by
        refine embed_text_hit ?_ hneE
        rw [hcc]
        exact hkeyE
      unfold store_memory
      rw [if_neg hne]
      simp only [hembHit]
      rw [hdb]
      rw [findDup_append_none (S := ℝ) cosine_similarity e db _ hfd]
      rw [findDup_cons_hit rfl (cosine_similarity_self he.1 he.2) (by norm_num)]
      rw [hres]

/-- Witness fixtures for the amended C6: first store of "a" with provider
vector `[1]` inserts a record; the state after the first store. -/
def c6res1 : StoreResult ℝ :=
  { duplicate_detected := false, memory_id := "id1",
    existing_memory_preview := none, similarity_score := none }

def c6cache1 : Cache := fun s => if s = "a" then some [1] else none

def c6db1 : List MemRecord :=
  [{ id := "id1", text := "a", emb := .valid [1], timestamp := none,
     language := "he", location := none }]

/-- Witness for the amended C6: with the unit vector `[1]` as embedding,
the second store of "a" reports the duplicate with score 1 and the id of
the first store. -/
theorem store_same_text_twice_amended_witness :
    (∀ t, (fun _ => [1] : String → List ℚ) t ≠ []
      ∧ sumsq ((fun _ => [1] : String → List ℚ) t) ≠ 0) ∧
    (∀ t v, (fun _ => none : Cache) t = some v → v ≠ [] ∧ sumsq v ≠ 0) ∧
    (store_memory (S := ℝ) cosine_similarity (fun _ => [1]) "id1" "a"
        { timestamp := none, language := none, location := none }
        (fun _ => none) [] = .ok (c6res1, c6cache1, c6db1)) ∧
    c6res1.duplicate_detected = false ∧
    (store_memory (S := ℝ) cosine_similarity (fun _ => [1]) "id2" "a"
        { timestamp := none, language := none, location := none } c6cache1 c6db1
      = .ok ({ duplicate_detected := true, memory_id := c6res1.memory_id,
               existing_memory_preview := some (pyStrip "a"),
               similarity_score := some 1 }, c6cache1, c6db1)
    ∧ (0.97 : ℝ) ≤ 1) := by
  have hprov : ∀ t, (fun _ => [1] : String → List ℚ) t ≠ []
      ∧ sumsq ((fun _ => [1] : String → List ℚ) t) ≠ 0 :=
    fun _ => ⟨by simp, by norm_num [sumsq]⟩
  have hcache : ∀ t v, (fun _ => none : Cache) t = some v → v ≠ [] ∧ sumsq v ≠ 0 :=
    fun _ v h => absurd h (by simp)
  have hne : ¬ (pyStrip "a" = "") := by
    rw [show pyStrip "a" = "a" from rfl]
    simp
  have hemb1 : embed_text (fun _ => [1]) (fun _ => none) (pyStrip "a")
      = .ok ([1], c6cache1) := rfl
  have h1 : store_memory (S := ℝ) cosine_similarity (fun _ => [1]) "id1" "a"
      { timestamp := none, language := none, location := none }
      (fun _ => none) [] = .ok (c6res1, c6cache1, c6db1) := by
    unfold store_memory
    rw [if_neg hne]
    simp only [hemb1]
    rw [show findDup (S := ℝ) cosine_similarity [1] [] = .ok none from rfl]
    rfl
  exact ⟨hprov, hcache, h1, rfl,
    store_same_text_twice_amended (fun _ => [1]) (fun _ => none) [] c6db1 "a"
      "id1" "id2" { timestamp := none, language := none, location := none }
      { timestamp := none, language := none, location := none }
      c6res1 c6cache1 hprov hcache h1 rfl⟩
